import Mathlib

/-!
# Verification of the security-scan aggregation core

Shallow embedding of the finding-aggregation core of the repository
(`skills/security-reviewer/scripts/`): the `Finding` record, the
fingerprint/merge deduplication algorithm (`utils/deduplicator.py`), the
severity normalizer (`utils/severity_mapper.py`), the tool-output parsers
(`parsers/semgrep_parser.py`, `parsers/trivy_parser.py`,
`parsers/npm_audit_parser.py`) and the orchestrator's adapter-selection
logic (`run_security_scan.py`).

Modelling conventions:
* Python `dict`s are insertion-ordered association lists with unique keys;
  `d[k] = v` updates the first matching key in place or appends, and the
  dict-literal merge `{**d1, **d2}` keeps `d1`'s key order with `d2`'s
  values winning on collisions, followed by `d2`-only keys in `d2` order.
* Python exceptions are `Option`/`Except` failures.
* JSON values are the inductive `Json`; JSON numbers are modelled as
  integers (floats do not occur in any claim).
* The MD5 digest of the fingerprint string is modelled as the string
  itself (the digest is collision-free on every input considered here, so
  digest equality coincides with data equality).
* String case mapping (`str.upper` / `str.lower`) is modelled on the
  ASCII range, which covers every string the severity tables contain.
* A handful of places where Python would silently carry a value of an
  unexpected runtime type into a string-typed `Finding` field (for
  example a numeric `name` in npm-audit output) are modelled as errors;
  each such spot is marked with a comment.  No theorem below depends on
  those inputs.
-/

/-! ## Python dict primitives (association lists) -/

/-- First-match association-list lookup: `d.get(k)` / `k in d`. -/
def pyLookup {α : Type} : List (String × α) → String → Option α
  | [], _ => none
  | (k, v) :: t, key => if k = key then some v else pyLookup t key

/-- Python `d[k] = v`: update the first matching key in place, else append. -/
def pyDictSet {α : Type} : List (String × α) → String → α → List (String × α)
  | [], k, v => [(k, v)]
  | (k', v') :: t, k, v =>
      if k' = k then (k', v) :: t else (k', v') :: pyDictSet t k v

/-- Python `{**d1, **d2}`: `d1`'s keys in order with `d2`'s values winning
on collisions, then the `d2`-only keys in `d2`'s order. -/
def pyDictMerge {α : Type} (d1 d2 : List (String × α)) : List (String × α) :=
  d1.map (fun p => (p.1, (pyLookup d2 p.1).getD p.2))
    ++ d2.filter (fun p => (pyLookup d1 p.1).isNone)

/-- The key list of an association list. -/
def keysOf {α : Type} (d : List (String × α)) : List String := d.map Prod.fst

/-! ## JSON values -/

inductive Json where
  | null : Json
  | bool : Bool → Json
  | num : Int → Json
  | str : String → Json
  | arr : List Json → Json
  | obj : List (String × Json) → Json

/-- Python hashability (set membership requires it): containers are not
hashable. -/
def pyHashable : Json → Bool
  | Json.arr _ => false
  | Json.obj _ => false
  | _ => true

/-- Equality test on hashable (scalar) JSON values; containers compare
unequal, but `pySetList` is only ever applied to all-hashable lists.
Python's cross-type numeric equality (`True == 1`) is not modelled; it
does not arise for the string lists the `tools` field holds. -/
def scalarEq : Json → Json → Bool
  | Json.null, Json.null => true
  | Json.bool a, Json.bool b => a == b
  | Json.num a, Json.num b => a == b
  | Json.str a, Json.str b => a == b
  | _, _ => false

/-- Deduplication keeping first occurrences.  Models `list(set(xs))`; the
iteration order of a Python `set` is unspecified, and no theorem in this
file depends on the order of the result, only on its membership. -/
def dedupKeepFirst : List Json → List Json
  | [] => []
  | x :: t => x :: (dedupKeepFirst t).filter (fun y => !(scalarEq y x))

/-- `list(set(xs))`: fails (Python `TypeError`) when an element is
unhashable. -/
def pySetList (xs : List Json) : Option (List Json) :=
  if xs.all pyHashable then some (dedupKeepFirst xs) else none

/-- Python truthiness of a JSON value. -/
def jsonTruthy : Json → Bool
  | Json.null => false
  | Json.bool b => b
  | Json.num n => decide (n ≠ 0)
  | Json.str s => decide (s ≠ "")
  | Json.arr xs => !xs.isEmpty
  | Json.obj fs => !fs.isEmpty

/-- Python `str(x)` for scalar JSON values; `str` of a container (its
`repr`) is not modelled. -/
def pyStrOf : Json → Except Unit String
  | Json.str s => .ok s
  | Json.num n => .ok (toString n)
  | Json.bool true => .ok "True"
  | Json.bool false => .ok "False"
  | Json.null => .ok "None"
  | _ => .error ()

/-- Accessing `.get` on a non-dict raises `AttributeError`. -/
def asObj : Json → Except Unit (List (String × Json))
  | Json.obj fs => .ok fs
  | _ => .error ()

/-- A string-typed field; a value of another runtime type is modelled as
an error (see the module comment). -/
def asStr : Json → Except Unit String
  | Json.str s => .ok s
  | _ => .error ()

/-- An integer-typed field; a value of another runtime type is modelled
as an error (see the module comment). -/
def asInt : Json → Except Unit Int
  | Json.num n => .ok n
  | _ => .error ()

/-- Python `for x in j`: lists yield elements, dicts yield their keys,
strings yield one-character strings, scalars raise `TypeError`. -/
def pyIterList : Json → Except Unit (List Json)
  | Json.arr xs => .ok xs
  | Json.obj fs => .ok (fs.map (fun p => Json.str p.1))
  | Json.str s => .ok (s.data.map (fun c => Json.str (String.mk [c])))
  | _ => .error ()

/-! ## ASCII case mapping and string ordering -/

/-- The 26 ASCII letter pairs (lower, upper). -/
def asciiPairs : List (Char × Char) :=
  [('a','A'), ('b','B'), ('c','C'), ('d','D'), ('e','E'), ('f','F'),
   ('g','G'), ('h','H'), ('i','I'), ('j','J'), ('k','K'), ('l','L'),
   ('m','M'), ('n','N'), ('o','O'), ('p','P'), ('q','Q'), ('r','R'),
   ('s','S'), ('t','T'), ('u','U'), ('v','V'), ('w','W'), ('x','X'),
   ('y','Y'), ('z','Z')]

/-- ASCII uppercase of one character. -/
def upChar (c : Char) : Char :=
  match asciiPairs.find? (fun p => p.1 = c) with
  | some p => p.2
  | none => c

/-- ASCII lowercase of one character. -/
def lowChar (c : Char) : Char :=
  match asciiPairs.find? (fun p => p.2 = c) with
  | some p => p.1
  | none => c

/-- Python `s.upper()` (ASCII range). -/
def pyToUpper (s : String) : String := String.mk (s.data.map upChar)

/-- Python `s.lower()` (ASCII range). -/
def pyToLower (s : String) : String := String.mk (s.data.map lowChar)

/-- Lexicographic comparison of character lists by code point, the order
Python's `<` uses on strings. -/
def lexLt : List Char → List Char → Bool
  | [], [] => false
  | [], _ :: _ => true
  | _ :: _, [] => false
  | a :: as, b :: bs => decide (a < b) || (decide (a = b) && lexLt as bs)

/-- Python `sorted({a, b})` for a two-element string set. -/
def sortedPair (a b : String) : List String :=
  if a = b then [a] else if lexLt a.data b.data then [a, b] else [b, a]

/-! ## The Finding record and the deduplicator (`utils/deduplicator.py`) -/

structure Finding where
  tool : String
  title : String
  severity : String
  category : String
  file_path : String
  line_start : Int
  line_end : Int
  code_snippet : String
  description : String
  cwe : String
  metadata : List (String × Json)

/-- `severity_order.get(s, 4)` with `severity_order =
{"CR": 0, "HI": 1, "ME": 2, "LO": 3}`. -/
def severityOrder (s : String) : Nat :=
  if s = "CR" then 0 else if s = "HI" then 1
  else if s = "ME" then 2 else if s = "LO" then 3 else 4

/-- `self.file_path.lstrip("./")`: removes every leading character
belonging to the set `{'.', '/'}`. -/
def lstripDotSlash (s : String) : String :=
  String.mk (s.data.dropWhile (fun c => c == '.' || c == '/'))

/-- `Finding.get_fingerprint`.  The MD5 digest is modelled as the
fingerprint data string itself (see the module comment). -/
def Finding.get_fingerprint (f : Finding) : String :=
  lstripDotSlash f.file_path ++ ":" ++ toString f.line_start ++ ":"
    ++ f.category ++ ":" ++ f.title

/-- `Finding.merge_with`.  `none` models the `TypeError` Python raises
when an existing `metadata["tools"]` value is not a list (or holds an
unhashable element). -/
def Finding.merge_with (self other : Finding) : Option Finding := do
  let merged_severity :=
    if severityOrder other.severity < severityOrder self.severity
    then other.severity else self.severity
  let merged_tool := String.intercalate ", " (sortedPair self.tool other.tool)
  let base := pyDictMerge self.metadata other.metadata
  let toolsVal ← match pyLookup base "tools" with
    | some (Json.arr xs) =>
        (pySetList (xs ++ [Json.str self.tool, Json.str other.tool])).map Json.arr
    | some _ => none
    | none => some (Json.arr [Json.str self.tool, Json.str other.tool])
  let merged_metadata := pyDictSet base "tools" toolsVal
  some { tool := merged_tool
         title := self.title
         severity := merged_severity
         category := self.category
         file_path := self.file_path
         line_start := min self.line_start other.line_start
         line_end := max self.line_end other.line_end
         code_snippet :=
           if self.code_snippet.length > other.code_snippet.length
           then self.code_snippet else other.code_snippet
         description :=
           if self.description.length > other.description.length
           then self.description else other.description
         cwe := if self.cwe ≠ "" then self.cwe else other.cwe
         metadata := merged_metadata }

/-- The deduplicator's `fingerprint_map`, in insertion order. -/
abbrev DedupState := List (String × Finding)

/-- `FindingDeduplicator.add_finding`; the Bool is its return value
(`true` iff newly inserted). -/
def addFinding (st : DedupState) (f : Finding) : Option (DedupState × Bool) :=
  match pyLookup st f.get_fingerprint with
  | some existing =>
      (existing.merge_with f).map
        (fun merged => (pyDictSet st f.get_fingerprint merged, false))
  | none => some (st ++ [(f.get_fingerprint, f)], true)

/-- `FindingDeduplicator.add_findings`. -/
def addFindings (st : DedupState) : List Finding → Option DedupState
  | [] => some st
  | f :: fs =>
    match addFinding st f with
    | some (st', _) => addFindings st' fs
    | none => none

/-- `FindingDeduplicator.get_unique_findings`. -/
def getUniqueFindings (st : DedupState) : List Finding := st.map Prod.snd

/-- `severity_counts[k] = severity_counts.get(k, 0) + 1`. -/
def bumpCount (acc : List (String × Nat)) (k : String) : List (String × Nat) :=
  pyDictSet acc k ((pyLookup acc k).getD 0 + 1)

structure Statistics where
  total : Nat
  by_severity : List (String × Nat)
  by_category : List (String × Nat)
deriving DecidableEq, Repr

/-- `FindingDeduplicator.get_statistics`. -/
def getStatistics (st : DedupState) : Statistics :=
  let findings := getUniqueFindings st
  { total := findings.length
    by_severity := findings.foldl (fun acc f => bumpCount acc f.severity)
      [("CR", 0), ("HI", 0), ("ME", 0), ("LO", 0)]
    by_category := findings.foldl (fun acc f => bumpCount acc f.category) [] }

/-! ## Severity normalization (`utils/severity_mapper.py`) -/

def semgrepTable : List (String × String) :=
  [("ERROR", "CR"), ("WARNING", "HI"), ("INFO", "ME"), ("NOTE", "LO")]

def banditTable : List (String × String) :=
  [("HIGH", "CR"), ("MEDIUM", "HI"), ("LOW", "ME")]

def npmAuditTable : List (String × String) :=
  [("critical", "CR"), ("high", "HI"), ("moderate", "ME"), ("low", "LO")]

def trivyTable : List (String × String) :=
  [("CRITICAL", "CR"), ("HIGH", "HI"), ("MEDIUM", "ME"), ("LOW", "LO")]

/-- The module-level `SEVERITY_MAPPINGS` tables. -/
def SEVERITY_MAPPINGS : List (String × List (String × String)) :=
  [("semgrep", semgrepTable), ("bandit", banditTable),
   ("npm_audit", npmAuditTable), ("trivy", trivyTable)]

/-- The two `ValueError` conditions `normalize_severity` raises. -/
inductive SeverityError where
  | unknownTool : SeverityError
  | unmappableSeverity : SeverityError
deriving DecidableEq, Repr

/-- First table entry whose key matches `su` case-insensitively
(`key.upper() == severity_upper` in the source's fallback loop). -/
def findCaseInsensitive : List (String × String) → String → Option String
  | [], _ => none
  | (k, v) :: t, su => if pyToUpper k = su then some v else findCaseInsensitive t su

/-- The severity-lookup body of `normalize_severity` once the tool's
table is in hand (severity_mapper.py lines 56-65). -/
def lookupSeverity (mapping : List (String × String)) (severity : String) :
    Except SeverityError String :=
  let severity_upper := pyToUpper severity
  let severity_lower := pyToLower severity
  if (pyLookup mapping severity_upper).isNone
      && (pyLookup mapping severity_lower).isNone then
    match findCaseInsensitive mapping severity_upper with
    | some v => .ok v
    | none => .error SeverityError.unmappableSeverity
  else
    .ok ((pyLookup mapping severity_upper).getD
          ((pyLookup mapping severity_lower).getD "LO"))

/-- `normalize_severity(tool, severity)` (severity_mapper.py lines 36-65). -/
def normalize_severity (tool severity : String) : Except SeverityError String :=
  match pyLookup SEVERITY_MAPPINGS (pyToLower tool) with
  | none => .error SeverityError.unknownTool
  | some mapping => lookupSeverity mapping severity

/-- `try: normalize_severity(tool, s) except ValueError: "ME"` — the
fallback every parser wraps around normalization. -/
def normalizeOrME (tool s : String) : String :=
  match normalize_severity tool s with
  | .ok v => v
  | .error _ => "ME"

/-! ## Semgrep output parser (`parsers/semgrep_parser.py`) -/

/-- Whether a character is an ASCII letter. -/
def isAsciiAlpha (c : Char) : Bool :=
  (asciiPairs.any (fun p => p.1 = c)) || (asciiPairs.any (fun p => p.2 = c))

/-- Auxiliary scanner of Python `str.title()`: uppercase a letter that
follows a non-letter, lowercase a letter that follows a letter. -/
def pyTitleAux : Bool → List Char → List Char
  | _, [] => []
  | prevAlpha, c :: t =>
    let isA := isAsciiAlpha c
    (if isA then (if prevAlpha then lowChar c else upChar c) else c)
      :: pyTitleAux isA t

/-- Python `s.title()` (ASCII range). -/
def pyTitle (s : String) : String := String.mk (pyTitleAux false s.data)

/-- Python `s.replace(".", " ")`. -/
def pyReplaceDot (s : String) : String :=
  String.mk (s.data.map (fun c => if c == '.' then ' ' else c))

/-- `if isinstance(cwe, list) and cwe: cwe = cwe[0]` — take the first
element of a non-empty list, else the value itself. -/
def cweExtract (c : Json) : Json :=
  match c with
  | Json.arr (x :: _) => x
  | _ => c

/-- One entry of semgrep's `results` list → one Finding
(semgrep_parser.py lines 32-77). -/
def semgrepResultFinding (result : Json) : Except Unit Finding := do
  let r ← asObj result
  let check_id ← asStr ((pyLookup r "check_id").getD (Json.str "unknown"))
  let extra ← asObj ((pyLookup r "extra").getD (Json.obj []))
  let message ← asStr ((pyLookup extra "message").getD (Json.str ""))
  let severity ← asStr ((pyLookup extra "severity").getD (Json.str "INFO"))
  let file_path ← asStr ((pyLookup r "path").getD (Json.str ""))
  let startObj ← asObj ((pyLookup r "start").getD (Json.obj []))
  let start_line ← asInt ((pyLookup startObj "line").getD (Json.num 0))
  let endObj ← asObj ((pyLookup r "end").getD (Json.obj []))
  let end_line ← asInt ((pyLookup endObj "line").getD (Json.num 0))
  let code_lines ← asStr ((pyLookup extra "lines").getD (Json.str ""))
  let metadata ← asObj ((pyLookup extra "metadata").getD (Json.obj []))
  let category ← asStr ((pyLookup metadata "category").getD (Json.str "security"))
  let cwe1 := cweExtract ((pyLookup metadata "cwe").getD (Json.str ""))
  let cwe ← if jsonTruthy cwe1 then pyStrOf cwe1 else pure ""
  let normalized := normalizeOrME "semgrep" severity
  pure { tool := "semgrep"
         title := pyTitle (pyReplaceDot check_id)
         severity := normalized
         category := category
         file_path := file_path
         line_start := start_line
         line_end := end_line
         code_snippet := code_lines
         description := message
         cwe := cwe
         metadata := pyDictMerge
           [("check_id", Json.str check_id), ("semgrep_severity", Json.str severity)]
           metadata }

/-- The loop over semgrep's `results`. -/
def semgrepResults : List Json → Except Unit (List Finding)
  | [] => .ok []
  | r :: rs => do
      let f ← semgrepResultFinding r
      let fs ← semgrepResults rs
      .ok (f :: fs)

/-- `SemgrepParser.parse`.  `none` models an unreadable file or
syntactically malformed JSON (the caught `IOError`/`JSONDecodeError`
path, which returns `[]`); `some data` is the decoded JSON document. -/
def semgrepParse : Option Json → Except Unit (List Finding)
  | none => .ok []
  | some data => do
      let d ← asObj data
      let results ← pyIterList ((pyLookup d "results").getD (Json.arr []))
      semgrepResults results

/-! ## Trivy output parser (`parsers/trivy_parser.py`) -/

/-- One entry of a result's `Vulnerabilities` list → one Finding
(trivy_parser.py lines 39-79). -/
def trivyVulnFinding (target : String) (vuln : Json) : Except Unit Finding := do
  let v ← asObj vuln
  let vuln_id ← asStr ((pyLookup v "VulnerabilityID").getD (Json.str "unknown"))
  let pkg_name ← asStr ((pyLookup v "PkgName").getD (Json.str ""))
  let installed ← asStr ((pyLookup v "InstalledVersion").getD (Json.str ""))
  let fixed ← asStr ((pyLookup v "FixedVersion").getD (Json.str ""))
  let severity ← asStr ((pyLookup v "Severity").getD (Json.str "MEDIUM"))
  let title ← asStr ((pyLookup v "Title").getD (Json.str ""))
  let description ← asStr ((pyLookup v "Description").getD (Json.str ""))
  let cwe_ids := (pyLookup v "CweIDs").getD (Json.arr [])
  -- `cwe_ids[0] if cwe_ids else ""`: indexing a truthy non-sequence raises.
  let cwe ← if jsonTruthy cwe_ids then
      match cwe_ids with
      | Json.arr (x :: _) => asStr x
      | Json.str s => pure (s.take 1)
      | _ => Except.error ()
    else pure ""
  let normalized := normalizeOrME "trivy" severity
  pure { tool := "trivy"
         title := if title ≠ "" then vuln_id ++ ": " ++ title else vuln_id
         severity := normalized
         category := "dependency-vulnerability"
         file_path := target
         line_start := 0
         line_end := 0
         code_snippet := "Package: " ++ pkg_name ++ "@" ++ installed
         description := if description ≠ "" then description else title
         cwe := cwe
         metadata := [("vulnerability_id", Json.str vuln_id),
                      ("package", Json.str pkg_name),
                      ("installed_version", Json.str installed),
                      ("fixed_version", Json.str fixed),
                      ("trivy_severity", Json.str severity),
                      ("references", (pyLookup v "References").getD (Json.arr []))] }

/-- The loop over one result's `Vulnerabilities`. -/
def trivyVulns (target : String) : List Json → Except Unit (List Finding)
  | [] => .ok []
  | v :: vs => do
      let f ← trivyVulnFinding target v
      let fs ← trivyVulns target vs
      .ok (f :: fs)

/-- One entry of trivy's `Results` array (trivy_parser.py lines 35-79). -/
def trivyResultFindings (result : Json) : Except Unit (List Finding) := do
  let r ← asObj result
  let target ← asStr ((pyLookup r "Target").getD (Json.str ""))
  let vulns ← pyIterList ((pyLookup r "Vulnerabilities").getD (Json.arr []))
  trivyVulns target vulns

/-- The loop over trivy's `Results`. -/
def trivyResults : List Json → Except Unit (List Finding)
  | [] => .ok []
  | r :: rs => do
      let fs ← trivyResultFindings r
      let rest ← trivyResults rs
      .ok (fs ++ rest)

/-- `TrivyParser.parse`, with the same input convention as
`semgrepParse`. -/
def trivyParse : Option Json → Except Unit (List Finding)
  | none => .ok []
  | some data => do
      let d ← asObj data
      let results ← pyIterList ((pyLookup d "Results").getD (Json.arr []))
      trivyResults results

/-! ## npm audit output parser (`parsers/npm_audit_parser.py`) -/

/-- One `dict`-valued entry of a package record's `via` list → one
Finding (npm_audit_parser.py lines 43-73). -/
def npmViaItemFinding (pkg title : String) (severityJ rangeJ : Json)
    (fields : List (String × Json)) : Except Unit Finding := do
  let description ← asStr ((pyLookup fields "title").getD (Json.str ""))
  let urlJ := (pyLookup fields "url").getD (Json.str "")
  let sev ← asStr severityJ
  let normalized := normalizeOrME "npm_audit" sev
  pure { tool := "npm_audit"
         title := if description ≠ "" then title ++ " - " ++ description else title
         severity := normalized
         category := "dependency-vulnerability"
         file_path := "package.json"
         line_start := 0
         line_end := 0
         code_snippet := "Package: " ++ pkg
         description := description
         cwe := ""
         metadata := [("package", Json.str pkg),
                      ("npm_severity", severityJ),
                      ("url", urlJ),
                      ("range", rangeJ)] }

/-- The loop over a package record's `via` list (npm_audit_parser.py
lines 42-73): only `dict` entries produce a Finding; other entries are
skipped silently by the `isinstance(item, dict)` guard. -/
def npmViaFindings (pkg title : String) (severityJ rangeJ : Json) :
    List Json → Except Unit (List Finding)
  | [] => .ok []
  | item :: rest =>
    match item with
    | Json.obj fields => do
        let f ← npmViaItemFinding pkg title severityJ rangeJ fields
        let fs ← npmViaFindings pkg title severityJ rangeJ rest
        .ok (f :: fs)
    | _ => npmViaFindings pkg title severityJ rangeJ rest

/-- One `vulnerabilities` record (npm_audit_parser.py lines 35-99).  A
non-string `name` field would flow into the title unconverted in Python;
it is modelled as an error (see the module comment). -/
def npmVulnFindings (pkg : String) (vdJ : Json) : Except Unit (List Finding) := do
  let vd ← asObj vdJ
  let severityJ := (pyLookup vd "severity").getD (Json.str "moderate")
  let title ← asStr ((pyLookup vd "name").getD (Json.str pkg))
  let rangeJ := (pyLookup vd "range").getD (Json.str "")
  match (pyLookup vd "via").getD (Json.arr []) with
  | Json.arr (i :: is) => npmViaFindings pkg title severityJ rangeJ (i :: is)
  | _ => do
      -- `via` absent, an empty list, or not a list at all: one synthetic
      -- Finding with a generic description.
      let sev ← asStr severityJ
      let normalized := normalizeOrME "npm_audit" sev
      .ok [{ tool := "npm_audit"
             title := title
             severity := normalized
             category := "dependency-vulnerability"
             file_path := "package.json"
             line_start := 0
             line_end := 0
             code_snippet := "Package: " ++ pkg
             description := "Vulnerability in " ++ pkg
             cwe := ""
             metadata := [("package", Json.str pkg),
                          ("npm_severity", severityJ),
                          ("range", rangeJ)] }]

/-- The loop over the `vulnerabilities` mapping's items. -/
def npmVulnsLoop : List (String × Json) → Except Unit (List Finding)
  | [] => .ok []
  | (pkg, vd) :: rest => do
      let fs ← npmVulnFindings pkg vd
      let more ← npmVulnsLoop rest
      .ok (fs ++ more)

/-- `NpmAuditParser.parse`, with the same input convention as
`semgrepParse`. -/
def npmParse : Option Json → Except Unit (List Finding)
  | none => .ok []
  | some data => do
      let d ← asObj data
      let vulns ← asObj ((pyLookup d "vulnerabilities").getD (Json.obj []))
      npmVulnsLoop vulns

/-! ## Orchestrator adapter selection (`run_security_scan.py`) -/

inductive AdapterName where
  | semgrep : AdapterName
  | bandit : AdapterName
  | npm_audit : AdapterName
  | trivy : AdapterName
deriving DecidableEq, Repr

/-- The environment the selection logic consults: the keys of the
detected-language mapping of the Environment Summary, and the file names
present at the target root. -/
structure ScanEnv where
  languages : List String
  rootFiles : List String
deriving DecidableEq, Repr

/-- The adapter-selection logic of `SecurityScanner.scan`
(run_security_scan.py lines 138-154): semgrep always; bandit iff
`"python" in env["languages"]`; npm_audit iff
`(target_path / "package.json").exists()`; trivy unconditionally. -/
def selectedAdapters (env : ScanEnv) : List AdapterName :=
  [AdapterName.semgrep]
    ++ (if "python" ∈ env.languages then [AdapterName.bandit] else [])
    ++ (if "package.json" ∈ env.rootFiles then [AdapterName.npm_audit] else [])
    ++ [AdapterName.trivy]

/-! ## Association-list lemmas -/

theorem pyLookup_append {α : Type} (l1 l2 : List (String × α)) (k : String) :
    pyLookup (l1 ++ l2) k =
      match pyLookup l1 k with
      | some v => some v
      | none => pyLookup l2 k := by
  induction l1 with
  | nil => simp [pyLookup]
  | cons p t ih =>
    obtain ⟨k', v'⟩ := p
    by_cases h : k' = k <;> simp [pyLookup, h, ih]

theorem pyLookup_map_val {α β : Type} (d : List (String × α))
    (g : String → α → β) (k : String) :
    pyLookup (d.map (fun p => (p.1, g p.1 p.2))) k = (pyLookup d k).map (g k) := by
  induction d with
  | nil => simp [pyLookup]
  | cons p t ih =>
    obtain ⟨k', v'⟩ := p
    by_cases h : k' = k <;> simp [pyLookup, h, ih]

theorem pyLookup_filter_keydet {α : Type} (d : List (String × α))
    (q : String → Bool) (k : String) :
    pyLookup (d.filter (fun p => q p.1)) k =
      if q k then pyLookup d k else none := by
  induction d with
  | nil => simp [pyLookup]
  | cons p t ih =>
    obtain ⟨k', v'⟩ := p
    by_cases hq : q k'
    · by_cases h : k' = k
      · subst h; simp [pyLookup, hq, List.filter]
      · simp [pyLookup, hq, h, ih, List.filter]
    · by_cases h : k' = k
      · subst h; simp [pyLookup, hq, ih, List.filter]
      · simp [pyLookup, hq, h, ih, List.filter]

theorem pyLookup_pyDictMerge {α : Type} (d1 d2 : List (String × α)) (k : String) :
    pyLookup (pyDictMerge d1 d2) k =
      match pyLookup d1 k with
      | some v => some ((pyLookup d2 k).getD v)
      | none => pyLookup d2 k := by
  unfold pyDictMerge
  rw [pyLookup_append]
  rw [pyLookup_map_val d1 (fun k v => (pyLookup d2 k).getD v) k]
  rw [pyLookup_filter_keydet d2 (fun k => (pyLookup d1 k).isNone) k]
  cases h : pyLookup d1 k <;> simp [h]

theorem pyLookup_isSome_iff_mem_keys {α : Type} (d : List (String × α)) (k : String) :
    (pyLookup d k).isSome ↔ k ∈ keysOf d := by
  induction d with
  | nil => simp [pyLookup, keysOf]
  | cons p t ih =>
    obtain ⟨k', v'⟩ := p
    by_cases h : k' = k
    · subst h; simp [pyLookup, keysOf]
    · simp only [pyLookup, keysOf, List.map_cons, List.mem_cons, if_neg h]
      simp only [keysOf] at ih
      constructor
      · intro hs; exact Or.inr (ih.mp hs)
      · rintro (h1 | h2)
        · exact absurd h1.symm h
        · exact ih.mpr h2

theorem pyLookup_none_iff {α : Type} (d : List (String × α)) (k : String) :
    pyLookup d k = none ↔ k ∉ keysOf d := by
  rw [← pyLookup_isSome_iff_mem_keys]
  cases pyLookup d k <;> simp

theorem pyLookup_pyDictSet_self {α : Type} (d : List (String × α)) (k : String) (v : α) :
    pyLookup (pyDictSet d k v) k = some v := by
  induction d with
  | nil => simp [pyDictSet, pyLookup]
  | cons p t ih =>
    obtain ⟨k', v'⟩ := p
    by_cases h : k' = k <;> simp [pyDictSet, pyLookup, h, ih]

theorem pyLookup_pyDictSet_ne {α : Type} (d : List (String × α)) (k k' : String)
    (v : α) (h : k' ≠ k) : pyLookup (pyDictSet d k v) k' = pyLookup d k' := by
  have h' : ¬ (k = k') := fun hh => h hh.symm
  induction d with
  | nil => simp [pyDictSet, pyLookup, h']
  | cons p t ih =>
    obtain ⟨k0, v0⟩ := p
    by_cases h0 : k0 = k
    · subst h0
      simp [pyDictSet, pyLookup, h']
    · simp [pyDictSet, pyLookup, h0, ih]

theorem keysOf_pyDictSet_mem {α : Type} (d : List (String × α)) (k : String) (v : α)
    (h : k ∈ keysOf d) : keysOf (pyDictSet d k v) = keysOf d := by
  induction d with
  | nil => simp [keysOf] at h
  | cons p t ih =>
    obtain ⟨k', v'⟩ := p
    by_cases h0 : k' = k
    · simp [pyDictSet, keysOf, h0]
    · have hk : k ∈ keysOf t := by
        simp only [keysOf, List.map_cons, List.mem_cons] at h
        rcases h with h | h
        · exact absurd h.symm h0
        · simpa [keysOf] using h
      have hrec := ih hk
      simp only [keysOf] at hrec
      simp [pyDictSet, keysOf, h0, hrec]

/-! ## Merge preconditions -/

/-- Well-formedness of a Finding's `metadata["tools"]` entry: when present
it is a list of hashable values — the only shape under which Python's
merge does not raise a `TypeError`.  Parser-constructed Findings never
set a `tools` key, so they satisfy this vacuously. -/
def toolsFieldOk (f : Finding) : Prop :=
  ∀ v, pyLookup f.metadata "tools" = some v →
    ∃ xs, v = Json.arr xs ∧ xs.all pyHashable = true

theorem toolsFieldOk_of_no_tools (f : Finding)
    (h : pyLookup f.metadata "tools" = none) : toolsFieldOk f := by
  intro v hv
  rw [h] at hv
  cases hv

theorem pySetList_append_strs (xs : List Json) (t1 t2 : String)
    (h : xs.all pyHashable = true) :
    ∃ ys, pySetList (xs ++ [Json.str t1, Json.str t2]) = some ys := by
  refine ⟨dedupKeepFirst (xs ++ [Json.str t1, Json.str t2]), ?_⟩
  unfold pySetList
  rw [if_pos]
  simp [List.all_append, h, pyHashable]

theorem mergeWith_isSome (a b : Finding)
    (ha : toolsFieldOk a) (hb : toolsFieldOk b) :
    ∃ m, a.merge_with b = some m := by
  unfold Finding.merge_with
  have hbase := pyLookup_pyDictMerge a.metadata b.metadata "tools"
  cases hA : pyLookup a.metadata "tools" with
  | none =>
    cases hB : pyLookup b.metadata "tools" with
    | none =>
      rw [hA, hB] at hbase
      simp only [hbase]
      exact ⟨_, rfl⟩
    | some vb =>
      obtain ⟨xs, rfl, hxs⟩ := hb vb hB
      rw [hA, hB] at hbase
      simp only [hbase]
      obtain ⟨ys, hys⟩ := pySetList_append_strs xs a.tool b.tool hxs
      simp [hys]
  | some va =>
    cases hB : pyLookup b.metadata "tools" with
    | none =>
      obtain ⟨xs, rfl, hxs⟩ := ha va hA
      rw [hA, hB] at hbase
      simp only [hbase, Option.getD]
      obtain ⟨ys, hys⟩ := pySetList_append_strs xs a.tool b.tool hxs
      simp [hys]
    | some vb =>
      obtain ⟨xs, rfl, hxs⟩ := hb vb hB
      rw [hA, hB] at hbase
      simp only [hbase, Option.getD]
      obtain ⟨ys, hys⟩ := pySetList_append_strs xs a.tool b.tool hxs
      simp [hys]

/-! ## C3: orchestrator adapter selection -/

/-- C3 counterexample: scanning a target with no detected languages and no
files at all at the target root still selects the trivy adapter, although
no ecosystem manifest file is present there — refuting "each of the two
dependency-auditor adapters runs iff its ecosystem manifest file is
present at the target root". -/
theorem c3_trivy_runs_without_manifest :
    AdapterName.trivy ∈ selectedAdapters { languages := [], rootFiles := [] } ∧
    ({ languages := [], rootFiles := [] } : ScanEnv).rootFiles = [] := by
  decide

/-- C3 (amended): the pattern-scanner (semgrep) adapter always runs; the
language-linter (bandit) adapter runs iff "python" is among the detected
languages; the npm_audit dependency auditor runs iff `package.json` is
present at the target root; and the trivy dependency auditor always runs,
unconditionally, with no manifest check. -/
theorem c3_adapter_selection_policy (env : ScanEnv) :
    AdapterName.semgrep ∈ selectedAdapters env ∧
    AdapterName.trivy ∈ selectedAdapters env ∧
    (AdapterName.bandit ∈ selectedAdapters env ↔ "python" ∈ env.languages) ∧
    (AdapterName.npm_audit ∈ selectedAdapters env ↔
      "package.json" ∈ env.rootFiles) := by
  unfold selectedAdapters
  by_cases hp : "python" ∈ env.languages <;>
    by_cases hn : "package.json" ∈ env.rootFiles <;>
      simp [hp, hn]

/-! ## C10: fingerprint path normalization -/

/-- C10: `lstrip("./")` removes every leading character from the set
`{'.', '/'}`, so any two Findings that agree on line_start, category and
title and whose file_paths agree after dropping a leading run of such
characters fingerprint equal, and adding both to a fresh deduplicator
leaves a single merged entry. -/
theorem c10_fingerprint_strips_leading_dot_slash_run (f g : Finding)
    (hpath : lstripDotSlash f.file_path = lstripDotSlash g.file_path)
    (hline : f.line_start = g.line_start)
    (hcat : f.category = g.category)
    (htitle : f.title = g.title)
    (hf : toolsFieldOk f) (hg : toolsFieldOk g) :
    f.get_fingerprint = g.get_fingerprint ∧
    ∃ st, addFindings [] [f, g] = some st ∧ st.length = 1 := by
  have hfp : f.get_fingerprint = g.get_fingerprint := by
    unfold Finding.get_fingerprint
    rw [hpath, hline, hcat, htitle]
  refine ⟨hfp, ?_⟩
  obtain ⟨m, hm⟩ := mergeWith_isSome f g hf hg
  refine ⟨[(f.get_fingerprint, m)], ?_, rfl⟩
  simp [addFindings, addFinding, pyLookup, hfp, hm, pyDictSet]

/-- C10 witness: the concrete pair `"..dir/app.py"` / `"dir/app.py"` from
the claim, identical otherwise, fingerprints equal and is merged to one
entry. -/
theorem c10_witness :
    (Finding.mk "A" "t" "HI" "security" "..dir/app.py" 1 1 "" "" "" []).get_fingerprint
      = (Finding.mk "B" "t" "HI" "security" "dir/app.py" 1 1 "" "" "" []).get_fingerprint ∧
    ∃ st, addFindings []
      [Finding.mk "A" "t" "HI" "security" "..dir/app.py" 1 1 "" "" "" [],
       Finding.mk "B" "t" "HI" "security" "dir/app.py" 1 1 "" "" "" []] = some st ∧
      st.length = 1 :=
  c10_fingerprint_strips_leading_dot_slash_run _ _ (by decide) rfl rfl rfl
    (toolsFieldOk_of_no_tools _ rfl) (toolsFieldOk_of_no_tools _ rfl)

/-! ## C8: deduplicator counting -/

theorem addFinding_of_lookup_none (st : DedupState) (f : Finding)
    (h : pyLookup st f.get_fingerprint = none) :
    addFinding st f = some (st ++ [(f.get_fingerprint, f)], true) := by
  unfold addFinding
  rw [h]

theorem addFinding_of_lookup_some (st : DedupState) (f existing : Finding)
    (h : pyLookup st f.get_fingerprint = some existing) :
    addFinding st f = (existing.merge_with f).map
      (fun merged => (pyDictSet st f.get_fingerprint merged, false)) := by
  unfold addFinding
  rw [h]

theorem addFindings_keys (fs : List Finding) :
    ∀ st st' : DedupState, addFindings st fs = some st' →
      (keysOf st).Nodup →
      (keysOf st').Nodup ∧
      (keysOf st').toFinset =
        (keysOf st).toFinset ∪ (fs.map Finding.get_fingerprint).toFinset := by
  induction fs with
  | nil =>
    intro st st' h hnd
    simp only [addFindings, Option.some.injEq] at h
    subst h
    simp [hnd]
  | cons f fs ih =>
    intro st st' h hnd
    simp only [addFindings] at h
    cases hlk : pyLookup st f.get_fingerprint with
    | none =>
      rw [addFinding_of_lookup_none st f hlk] at h
      have hnotmem : f.get_fingerprint ∉ keysOf st :=
        (pyLookup_none_iff st f.get_fingerprint).mp hlk
      have hkeys : keysOf (st ++ [(f.get_fingerprint, f)]) =
          keysOf st ++ [f.get_fingerprint] := by
        simp [keysOf]
      have hnd1 : (keysOf (st ++ [(f.get_fingerprint, f)])).Nodup := by
        rw [hkeys]
        simpa [List.nodup_append, hnotmem] using hnd
      obtain ⟨hnd', hset⟩ := ih _ _ h hnd1
      refine ⟨hnd', ?_⟩
      rw [hset, hkeys]
      simp only [List.toFinset_append, List.toFinset_cons, List.toFinset_nil,
        List.map_cons]
      ext x
      simp only [Finset.mem_union, Finset.mem_insert, Finset.not_mem_empty,
        or_false, List.mem_toFinset]
      tauto
    | some existing =>
      rw [addFinding_of_lookup_some st f existing hlk] at h
      cases hmg : existing.merge_with f with
      | none =>
        rw [hmg] at h
        cases h
      | some m =>
        rw [hmg] at h
        simp only [Option.map_some'] at h
        have hmem : f.get_fingerprint ∈ keysOf st := by
          rw [← pyLookup_isSome_iff_mem_keys, hlk]
          rfl
        have hkeys := keysOf_pyDictSet_mem st f.get_fingerprint m hmem
        obtain ⟨hnd', hset⟩ := ih _ _ h (by rw [hkeys]; exact hnd)
        rw [hkeys] at hset
        refine ⟨hnd', ?_⟩
        rw [hset]
        simp only [List.map_cons, List.toFinset_cons]
        ext x
        simp only [Finset.mem_union, Finset.mem_insert, List.mem_toFinset]
        constructor
        · tauto
        · rintro (h1 | h2 | h3)
          · exact Or.inl h1
          · subst h2
            exact Or.inl (by simpa using hmem)
          · exact Or.inr h3

/-- C8: after adding N findings to a fresh deduplicator (all merges
succeeding), the stored total equals the number of distinct fingerprints
among them — never more; and each individual `add_finding` call returns
`True` iff the finding's fingerprint was not previously stored (`False`
iff it was merged into an existing entry). -/
theorem c8_count_eq_distinct_fingerprints :
    (∀ (fs : List Finding) (st : DedupState),
        addFindings [] fs = some st →
        st.length = (fs.map Finding.get_fingerprint).toFinset.card) ∧
    (∀ (st : DedupState) (f : Finding) (st' : DedupState) (b : Bool),
        addFinding st f = some (st', b) →
        (b = true ↔ pyLookup st f.get_fingerprint = none)) := by
  constructor
  · intro fs st h
    obtain ⟨hnd, hset⟩ := addFindings_keys fs [] st h (by simp [keysOf])
    have hlen : st.length = (keysOf st).length := by simp [keysOf]
    rw [hlen, ← List.toFinset_card_of_nodup hnd, hset]
    simp [keysOf]
  · intro st f st' b h
    cases hlk : pyLookup st f.get_fingerprint with
    | none =>
      rw [addFinding_of_lookup_none st f hlk] at h
      simp only [Option.some.injEq, Prod.mk.injEq] at h
      simp [← h.2]
    | some existing =>
      rw [addFinding_of_lookup_some st f existing hlk] at h
      cases hmg : existing.merge_with f with
      | none =>
        rw [hmg] at h
        cases h
      | some m =>
        rw [hmg] at h
        simp only [Option.map_some', Option.some.injEq, Prod.mk.injEq] at h
        simp [← h.2]

/-! ## C9: statistics -/

/-- The sum of the counter values of a counting dict. -/
def sumVals (l : List (String × Nat)) : Nat := (l.map Prod.snd).sum

/-- The sum over exactly the four severity buckets. -/
def fourBucketSum (bs : List (String × Nat)) : Nat :=
  (pyLookup bs "CR").getD 0 + (pyLookup bs "HI").getD 0
    + (pyLookup bs "ME").getD 0 + (pyLookup bs "LO").getD 0

theorem sumVals_bumpCount (acc : List (String × Nat)) (k : String) :
    sumVals (bumpCount acc k) = sumVals acc + 1 := by
  induction acc with
  | nil => simp [bumpCount, pyDictSet, pyLookup, sumVals]
  | cons p t ih =>
    obtain ⟨k', v'⟩ := p
    by_cases h : k' = k
    · subst h
      simp [bumpCount, pyDictSet, pyLookup, sumVals]
      omega
    · simp only [bumpCount, pyDictSet, pyLookup, if_neg h] at ih ⊢
      simp only [sumVals, List.map_cons, List.sum_cons] at ih ⊢
      omega

theorem keysOf_bumpCount (acc : List (String × Nat)) (k : String)
    (h : k ∈ keysOf acc) : keysOf (bumpCount acc k) = keysOf acc :=
  keysOf_pyDictSet_mem acc k _ h

theorem severityFold_keys (fs : List Finding) :
    ∀ acc : List (String × Nat),
      (∀ f ∈ fs, f.severity ∈ keysOf acc) →
      keysOf (fs.foldl (fun a f => bumpCount a f.severity) acc) = keysOf acc := by
  induction fs with
  | nil => intro acc _; rfl
  | cons f fs ih =>
    intro acc hmem
    have hk := keysOf_bumpCount acc f.severity (hmem f (by simp))
    simp only [List.foldl_cons]
    rw [ih (bumpCount acc f.severity) (fun g hg => by
      rw [hk]; exact hmem g (by simp [hg])), hk]

theorem severityFold_sum (fs : List Finding) :
    ∀ acc : List (String × Nat),
      sumVals (fs.foldl (fun a f => bumpCount a f.severity) acc) =
        sumVals acc + fs.length := by
  induction fs with
  | nil => intro acc; simp
  | cons f fs ih =>
    intro acc
    simp only [List.foldl_cons, List.length_cons]
    rw [ih (bumpCount acc f.severity), sumVals_bumpCount]
    omega

theorem fourBucketSum_eq_sumVals (bs : List (String × Nat))
    (h : keysOf bs = ["CR", "HI", "ME", "LO"]) : fourBucketSum bs = sumVals bs := by
  rcases bs with _ | ⟨⟨k1, a⟩, _ | ⟨⟨k2, b⟩, _ | ⟨⟨k3, c⟩, _ | ⟨⟨k4, d⟩, _ | ⟨p5, rest⟩⟩⟩⟩⟩ <;>
    simp only [keysOf, List.map_cons, List.map_nil, List.cons.injEq] at h
  · exact absurd h (by simp)
  · exact absurd h (by simp)
  · exact absurd h (by simp)
  · exact absurd h (by simp)
  · obtain ⟨h1, h2, h3, h4, -⟩ := h
    subst h1; subst h2; subst h3; subst h4
    simp [fourBucketSum, sumVals, pyLookup]
    omega
  · exact absurd h (by simp)

/-- C9: in every deduplicator state whose stored Findings carry canonical
ordinal severities (the data-model invariant every parser maintains), the
four `by_severity` buckets of `get_statistics` sum exactly to `total`. -/
theorem c9_severity_buckets_sum_to_total (st : DedupState)
    (h : ∀ f ∈ getUniqueFindings st,
      f.severity ∈ (["CR", "HI", "ME", "LO"] : List String)) :
    fourBucketSum (getStatistics st).by_severity = (getStatistics st).total := by
  have hinit : keysOf ([("CR", 0), ("HI", 0), ("ME", 0), ("LO", 0)] :
      List (String × Nat)) = ["CR", "HI", "ME", "LO"] := rfl
  have hk := severityFold_keys (getUniqueFindings st)
    [("CR", 0), ("HI", 0), ("ME", 0), ("LO", 0)]
    (fun f hf => by rw [hinit]; exact h f hf)
  show fourBucketSum ((getUniqueFindings st).foldl
      (fun a f => bumpCount a f.severity)
      [("CR", 0), ("HI", 0), ("ME", 0), ("LO", 0)]) = (getUniqueFindings st).length
  rw [fourBucketSum_eq_sumVals _ (hk.trans hinit), severityFold_sum]
  simp [sumVals]

/-! ## Sample findings used by the witnesses -/

/-- The tool-A finding of the spec's dedup scenario. -/
def sampleA : Finding :=
  Finding.mk "A" "sql-injection" "HI" "security" "app.py" 10 10 "" "" "" []

/-- The tool-B finding of the spec's dedup scenario. -/
def sampleB : Finding :=
  Finding.mk "B" "sql-injection" "CR" "security" "app.py" 10 12 "" "" "" []

/-- A finding with a fingerprint distinct from `sampleA`'s. -/
def sampleC : Finding :=
  Finding.mk "C" "hardcoded-secret" "LO" "security" "config.py" 3 3 "" "" "" []

/-- C8 witness: two findings with distinct fingerprints leave a state of
length two, and an insertion into the empty state returns `True`. -/
theorem c8_witness :
    ([(sampleA.get_fingerprint, sampleA), (sampleC.get_fingerprint, sampleC)] :
        DedupState).length
      = ([sampleA, sampleC].map Finding.get_fingerprint).toFinset.card ∧
    (true = true ↔ pyLookup ([] : DedupState) sampleA.get_fingerprint = none) :=
  ⟨c8_count_eq_distinct_fingerprints.1 [sampleA, sampleC]
      [(sampleA.get_fingerprint, sampleA), (sampleC.get_fingerprint, sampleC)] rfl,
   c8_count_eq_distinct_fingerprints.2 []
      sampleA [(sampleA.get_fingerprint, sampleA)] true rfl⟩

/-- C9 witness: a one-finding state with severity "HI". -/
theorem c9_witness :
    fourBucketSum (getStatistics [(sampleA.get_fingerprint, sampleA)]).by_severity
      = (getStatistics [(sampleA.get_fingerprint, sampleA)]).total :=
  c9_severity_buckets_sum_to_total _ (by
    intro f hf
    simp only [getUniqueFindings, List.map_cons, List.map_nil,
      List.mem_singleton] at hf
    subst hf
    decide)

/-! ## Merge inversion -/

theorem mergeWith_eq_of_tools_none (a b : Finding)
    (hT : pyLookup (pyDictMerge a.metadata b.metadata) "tools" = none) :
    a.merge_with b = some (Finding.mk
      (String.intercalate ", " (sortedPair a.tool b.tool))
      a.title
      (if severityOrder b.severity < severityOrder a.severity
        then b.severity else a.severity)
      a.category a.file_path
      (min a.line_start b.line_start) (max a.line_end b.line_end)
      (if a.code_snippet.length > b.code_snippet.length
        then a.code_snippet else b.code_snippet)
      (if a.description.length > b.description.length
        then a.description else b.description)
      (if a.cwe ≠ "" then a.cwe else b.cwe)
      (pyDictSet (pyDictMerge a.metadata b.metadata) "tools"
        (Json.arr [Json.str a.tool, Json.str b.tool]))) := by
  unfold Finding.merge_with
  dsimp only
  rw [hT]
  rfl

theorem mergeWith_eq_of_tools_arr (a b : Finding) (xs : List Json)
    (hT : pyLookup (pyDictMerge a.metadata b.metadata) "tools" = some (Json.arr xs))
    (hxs : (xs ++ [Json.str a.tool, Json.str b.tool]).all pyHashable = true) :
    a.merge_with b = some (Finding.mk
      (String.intercalate ", " (sortedPair a.tool b.tool))
      a.title
      (if severityOrder b.severity < severityOrder a.severity
        then b.severity else a.severity)
      a.category a.file_path
      (min a.line_start b.line_start) (max a.line_end b.line_end)
      (if a.code_snippet.length > b.code_snippet.length
        then a.code_snippet else b.code_snippet)
      (if a.description.length > b.description.length
        then a.description else b.description)
      (if a.cwe ≠ "" then a.cwe else b.cwe)
      (pyDictSet (pyDictMerge a.metadata b.metadata) "tools"
        (Json.arr (dedupKeepFirst (xs ++ [Json.str a.tool, Json.str b.tool]))))) := by
  unfold Finding.merge_with
  dsimp only
  rw [hT]
  simp [pySetList, hxs]

theorem mergeWith_inv (a b m : Finding) (h : a.merge_with b = some m) :
    ∃ tv, m = Finding.mk
      (String.intercalate ", " (sortedPair a.tool b.tool))
      a.title
      (if severityOrder b.severity < severityOrder a.severity
        then b.severity else a.severity)
      a.category a.file_path
      (min a.line_start b.line_start) (max a.line_end b.line_end)
      (if a.code_snippet.length > b.code_snippet.length
        then a.code_snippet else b.code_snippet)
      (if a.description.length > b.description.length
        then a.description else b.description)
      (if a.cwe ≠ "" then a.cwe else b.cwe)
      (pyDictSet (pyDictMerge a.metadata b.metadata) "tools" tv) ∧
    ((pyLookup (pyDictMerge a.metadata b.metadata) "tools" = none ∧
        tv = Json.arr [Json.str a.tool, Json.str b.tool]) ∨
     (∃ xs, pyLookup (pyDictMerge a.metadata b.metadata) "tools"
          = some (Json.arr xs) ∧
        (xs ++ [Json.str a.tool, Json.str b.tool]).all pyHashable = true ∧
        tv = Json.arr (dedupKeepFirst (xs ++ [Json.str a.tool, Json.str b.tool])))) := by
  cases hT : pyLookup (pyDictMerge a.metadata b.metadata) "tools" with
  | none =>
    rw [mergeWith_eq_of_tools_none a b hT] at h
    exact ⟨Json.arr [Json.str a.tool, Json.str b.tool],
      (Option.some.inj h).symm, Or.inl ⟨rfl, rfl⟩⟩
  | some v =>
    cases v with
    | arr xs =>
      by_cases hall : (xs ++ [Json.str a.tool, Json.str b.tool]).all pyHashable = true
      · rw [mergeWith_eq_of_tools_arr a b xs hT hall] at h
        exact ⟨Json.arr (dedupKeepFirst (xs ++ [Json.str a.tool, Json.str b.tool])),
          (Option.some.inj h).symm, Or.inr ⟨xs, rfl, hall, rfl⟩⟩
      · exfalso
        unfold Finding.merge_with at h
        dsimp only at h
        rw [hT] at h
        simp [pySetList, hall] at h
    | null =>
      exfalso
      unfold Finding.merge_with at h
      dsimp only at h
      rw [hT] at h
      simp at h
    | bool bb =>
      exfalso
      unfold Finding.merge_with at h
      dsimp only at h
      rw [hT] at h
      simp at h
    | num n =>
      exfalso
      unfold Finding.merge_with at h
      dsimp only at h
      rw [hT] at h
      simp at h
    | str s =>
      exfalso
      unfold Finding.merge_with at h
      dsimp only at h
      rw [hT] at h
      simp at h
    | obj fs =>
      exfalso
      unfold Finding.merge_with at h
      dsimp only at h
      rw [hT] at h
      simp at h

/-! ## C7: the cross-tool dedup scenario -/

/-- C7: two findings agreeing on file `app.py`, line 10, category
`security` and title `sql-injection`, one from tool "A" at severity High
("HI") and one from tool "B" at severity Critical ("CR"), deduplicate to
exactly one finding with severity Critical and tool "A, B". -/
theorem c7_cross_tool_merge_scenario (a b : Finding)
    (hat : a.tool = "A") (hbt : b.tool = "B")
    (hati : a.title = "sql-injection") (hbti : b.title = "sql-injection")
    (has : a.severity = "HI") (hbs : b.severity = "CR")
    (hac : a.category = "security") (hbc : b.category = "security")
    (hap : a.file_path = "app.py") (hbp : b.file_path = "app.py")
    (hal : a.line_start = 10) (hbl : b.line_start = 10)
    (hwa : toolsFieldOk a) (hwb : toolsFieldOk b) :
    ∃ st m, addFindings [] [a, b] = some st ∧ getUniqueFindings st = [m] ∧
      m.severity = "CR" ∧ m.tool = "A, B" := by
  have hfp : a.get_fingerprint = b.get_fingerprint := by
    unfold Finding.get_fingerprint
    rw [hap, hbp, hal, hbl, hac, hbc, hati, hbti]
  obtain ⟨m, hm⟩ := mergeWith_isSome a b hwa hwb
  obtain ⟨tv, hmeq, -⟩ := mergeWith_inv a b m hm
  have h1 : addFindings [] [a, b] = some [(a.get_fingerprint, m)] := by
    simp [addFindings, addFinding, pyLookup, hfp, hm, pyDictSet]
  refine ⟨[(a.get_fingerprint, m)], m, h1, rfl, ?_, ?_⟩
  · rw [hmeq]
    show (if severityOrder b.severity < severityOrder a.severity
      then b.severity else a.severity) = "CR"
    rw [has, hbs]
    decide
  · rw [hmeq]
    show String.intercalate ", " (sortedPair a.tool b.tool) = "A, B"
    rw [hat, hbt]
    decide

/-- C7 witness: the concrete findings of the scenario. -/
theorem c7_witness :
    ∃ st m, addFindings [] [sampleA, sampleB] = some st ∧
      getUniqueFindings st = [m] ∧ m.severity = "CR" ∧ m.tool = "A, B" :=
  c7_cross_tool_merge_scenario sampleA sampleB rfl rfl rfl rfl rfl rfl rfl rfl
    rfl rfl rfl rfl (toolsFieldOk_of_no_tools _ rfl)
    (toolsFieldOk_of_no_tools _ rfl)

/-! ## C1: merge commutativity and idempotence -/

theorem lexLt_asymm : ∀ l1 l2 : List Char, lexLt l1 l2 = true → lexLt l2 l1 = false := by
  intro l1
  induction l1 with
  | nil =>
    intro l2 h
    cases l2 with
    | nil => simp [lexLt] at h
    | cons b bs => rfl
  | cons a as ih =>
    intro l2 h
    cases l2 with
    | nil => simp [lexLt] at h
    | cons b bs =>
      simp only [lexLt, Bool.or_eq_true, Bool.and_eq_true, decide_eq_true_eq] at h ⊢
      rcases h with h | ⟨heq, hlt⟩
      · simp [lexLt, lt_asymm h, ne_of_gt h]
      · subst heq
        simp [lexLt, lt_irrefl, ih bs hlt]

theorem lexLt_total (l1 : List Char) :
    ∀ l2 : List Char, l1 ≠ l2 → lexLt l1 l2 = true ∨ lexLt l2 l1 = true := by
  induction l1 with
  | nil =>
    intro l2 h
    cases l2 with
    | nil => exact absurd rfl h
    | cons b bs => left; rfl
  | cons a as ih =>
    intro l2 h
    cases l2 with
    | nil => right; rfl
    | cons b bs =>
      rcases lt_trichotomy a b with hab | hab | hab
      · left; simp [lexLt, hab]
      · subst hab
        have hne : as ≠ bs := fun hh => h (by rw [hh])
        rcases ih bs hne with h1 | h1
        · left; simp [lexLt, h1]
        · right; simp [lexLt, h1]
      · right; simp [lexLt, hab]

theorem sortedPair_comm (x y : String) : sortedPair x y = sortedPair y x := by
  by_cases hxy : x = y
  · subst hxy; rfl
  · have hyx : ¬ y = x := fun hh => hxy hh.symm
    have hdata : x.data ≠ y.data := by
      intro hh
      exact hxy (by cases x; cases y; exact congrArg String.mk hh)
    rcases lexLt_total x.data y.data hdata with h1 | h1
    · simp [sortedPair, hxy, hyx, h1, lexLt_asymm _ _ h1]
    · simp [sortedPair, hxy, hyx, h1, lexLt_asymm _ _ h1]

theorem severity_sel_comm (sa sb : String)
    (ha : sa ∈ (["CR", "HI", "ME", "LO"] : List String))
    (hb : sb ∈ (["CR", "HI", "ME", "LO"] : List String)) :
    (if severityOrder sb < severityOrder sa then sb else sa)
      = (if severityOrder sa < severityOrder sb then sa else sb) := by
  fin_cases ha <;> fin_cases hb <;> decide

theorem scalarEq_sound : ∀ {x y : Json}, scalarEq x y = true → x = y := by
  intro x y h
  cases x <;> cases y <;> simp_all [scalarEq]

theorem mem_dedupKeepFirst (x : Json) :
    ∀ l : List Json, x ∈ dedupKeepFirst l ↔ x ∈ l := by
  intro l
  induction l with
  | nil => simp [dedupKeepFirst]
  | cons y t ih =>
    simp only [dedupKeepFirst, List.mem_cons]
    constructor
    · rintro (hx | hx)
      · exact Or.inl hx
      · exact Or.inr (ih.mp (List.mem_of_mem_filter hx))
    · rintro (hx | hx)
      · exact Or.inl hx
      · by_cases hsc : scalarEq x y = true
        · exact Or.inl (scalarEq_sound hsc)
        · refine Or.inr (List.mem_filter.mpr ⟨ih.mpr hx, ?_⟩)
          simp [hsc]

/-- First merge counterexample input from tool "t" (leading "./" path,
non-canonical severity, tie-length description/snippet, non-empty cwe,
colliding metadata key). -/
def cexA : Finding :=
  Finding.mk "t" "x" "XX" "c" "./p.py" 1 1 "s1" "d" "w1" [("k", Json.str "1")]

/-- Second merge counterexample input, fingerprint-equal to `cexA`. -/
def cexB : Finding :=
  Finding.mk "t" "x" "YY" "c" "p.py" 1 1 "s2" "e" "w2" [("k", Json.str "2")]

/-- C1 counterexample: `cexA` and `cexB` share a fingerprint, yet
`merge_with` resolves file_path, severity (non-canonical strings),
equal-length descriptions and code snippets, cwe, and colliding metadata
keys asymmetrically, so `merge(a,b)` and `merge(b,a)` differ — refuting
commutativity "in every field". -/
theorem c1_merge_not_commutative :
    cexA.get_fingerprint = cexB.get_fingerprint ∧
    (cexA.merge_with cexB).map Finding.file_path = some "./p.py" ∧
    (cexB.merge_with cexA).map Finding.file_path = some "p.py" ∧
    (cexA.merge_with cexB).map Finding.severity = some "XX" ∧
    (cexB.merge_with cexA).map Finding.severity = some "YY" ∧
    (cexA.merge_with cexB).map Finding.description = some "e" ∧
    (cexB.merge_with cexA).map Finding.description = some "d" ∧
    (cexA.merge_with cexB).map Finding.code_snippet = some "s2" ∧
    (cexB.merge_with cexA).map Finding.code_snippet = some "s1" ∧
    (cexA.merge_with cexB).map Finding.cwe = some "w1" ∧
    (cexB.merge_with cexA).map Finding.cwe = some "w2" ∧
    cexA.merge_with cexB ≠ cexB.merge_with cexA := by
  refine ⟨rfl, rfl, rfl, rfl, rfl, rfl, rfl, rfl, rfl, rfl, rfl, ?_⟩
  intro h
  have h2 := congrArg (Option.map Finding.file_path) h
  exact absurd h2 (by decide)

/-- C1 (amended): merge is commutative on the tool set, the identity
fields (title and category, identical by the collision assumption), the
severity selection (for canonical ordinal severities), and the line
range; and `merge(a,a)` reproduces `a` in every field except the
metadata `tools` entry, which becomes a one-element tool set.
Commutativity does not extend to file_path, code_snippet, description,
cwe, or metadata, which the implementation resolves asymmetrically
(see the counterexample). -/
theorem c1_merge_commutative_fields_and_idempotent :
    (∀ a b m₁ m₂ : Finding,
        a.merge_with b = some m₁ → b.merge_with a = some m₂ →
        a.title = b.title → a.category = b.category →
        a.severity ∈ (["CR", "HI", "ME", "LO"] : List String) →
        b.severity ∈ (["CR", "HI", "ME", "LO"] : List String) →
        m₁.tool = m₂.tool ∧ m₁.title = m₂.title ∧ m₁.severity = m₂.severity ∧
        m₁.category = m₂.category ∧ m₁.line_start = m₂.line_start ∧
        m₁.line_end = m₂.line_end) ∧
    (∀ a m : Finding,
        pyLookup a.metadata "tools" = none →
        a.merge_with a = some m →
        m.tool = a.tool ∧ m.title = a.title ∧ m.severity = a.severity ∧
        m.category = a.category ∧ m.file_path = a.file_path ∧
        m.line_start = a.line_start ∧ m.line_end = a.line_end ∧
        m.code_snippet = a.code_snippet ∧ m.description = a.description ∧
        m.cwe = a.cwe ∧
        (∀ k, k ≠ "tools" → pyLookup m.metadata k = pyLookup a.metadata k) ∧
        (∃ ts, pyLookup m.metadata "tools" = some (Json.arr ts) ∧
          ∀ x, x ∈ ts ↔ x = Json.str a.tool)) := by
  constructor
  · intro a b m₁ m₂ h1 h2 htitle hcat hsa hsb
    obtain ⟨tv1, hm1, -⟩ := mergeWith_inv a b m₁ h1
    obtain ⟨tv2, hm2, -⟩ := mergeWith_inv b a m₂ h2
    subst hm1; subst hm2
    refine ⟨?_, htitle, ?_, hcat, min_comm _ _, max_comm _ _⟩
    · show String.intercalate ", " (sortedPair a.tool b.tool)
        = String.intercalate ", " (sortedPair b.tool a.tool)
      rw [sortedPair_comm]
    · exact severity_sel_comm a.severity b.severity hsa hsb
  · intro a m hT h
    have hTm : pyLookup (pyDictMerge a.metadata a.metadata) "tools" = none := by
      rw [pyLookup_pyDictMerge, hT]
    rw [mergeWith_eq_of_tools_none a a hTm] at h
    have hm := (Option.some.inj h).symm
    subst hm
    refine ⟨?_, rfl, ?_, rfl, rfl, min_self _, max_self _, ?_, ?_, ?_, ?_, ?_⟩
    · show String.intercalate ", " (sortedPair a.tool a.tool) = a.tool
      simp only [sortedPair, if_pos rfl]
      rfl
    · show (if severityOrder a.severity < severityOrder a.severity
        then a.severity else a.severity) = a.severity
      simp
    · show (if a.code_snippet.length > a.code_snippet.length
        then a.code_snippet else a.code_snippet) = a.code_snippet
      simp
    · show (if a.description.length > a.description.length
        then a.description else a.description) = a.description
      simp
    · show (if a.cwe ≠ "" then a.cwe else a.cwe) = a.cwe
      simp
    · intro k hk
      show pyLookup (pyDictSet (pyDictMerge a.metadata a.metadata) "tools" _) k
        = pyLookup a.metadata k
      rw [pyLookup_pyDictSet_ne _ _ _ _ hk, pyLookup_pyDictMerge]
      cases hak : pyLookup a.metadata k <;> simp [hak]
    · refine ⟨[Json.str a.tool, Json.str a.tool], ?_, ?_⟩
      · show pyLookup (pyDictSet (pyDictMerge a.metadata a.metadata) "tools"
          (Json.arr [Json.str a.tool, Json.str a.tool])) "tools"
          = some (Json.arr [Json.str a.tool, Json.str a.tool])
        exact pyLookup_pyDictSet_self _ _ _
      · intro x
        simp [or_self_iff]

/-- C1 witness: the commutative-field part applied to the concrete
sample pair, and the idempotence part applied to `sampleA`. -/
theorem c1_witness :
    ((Finding.mk "A, B" "sql-injection" "CR" "security" "app.py" 10 12 "" "" ""
        [("tools", Json.arr [Json.str "A", Json.str "B"])]).tool
      = (Finding.mk "A, B" "sql-injection" "CR" "security" "app.py" 10 12 "" "" ""
        [("tools", Json.arr [Json.str "B", Json.str "A"])]).tool ∧
     (Finding.mk "A, B" "sql-injection" "CR" "security" "app.py" 10 12 "" "" ""
        [("tools", Json.arr [Json.str "A", Json.str "B"])]).title
      = (Finding.mk "A, B" "sql-injection" "CR" "security" "app.py" 10 12 "" "" ""
        [("tools", Json.arr [Json.str "B", Json.str "A"])]).title ∧
     (Finding.mk "A, B" "sql-injection" "CR" "security" "app.py" 10 12 "" "" ""
        [("tools", Json.arr [Json.str "A", Json.str "B"])]).severity
      = (Finding.mk "A, B" "sql-injection" "CR" "security" "app.py" 10 12 "" "" ""
        [("tools", Json.arr [Json.str "B", Json.str "A"])]).severity ∧
     (Finding.mk "A, B" "sql-injection" "CR" "security" "app.py" 10 12 "" "" ""
        [("tools", Json.arr [Json.str "A", Json.str "B"])]).category
      = (Finding.mk "A, B" "sql-injection" "CR" "security" "app.py" 10 12 "" "" ""
        [("tools", Json.arr [Json.str "B", Json.str "A"])]).category ∧
     (Finding.mk "A, B" "sql-injection" "CR" "security" "app.py" 10 12 "" "" ""
        [("tools", Json.arr [Json.str "A", Json.str "B"])]).line_start
      = (Finding.mk "A, B" "sql-injection" "CR" "security" "app.py" 10 12 "" "" ""
        [("tools", Json.arr [Json.str "B", Json.str "A"])]).line_start ∧
     (Finding.mk "A, B" "sql-injection" "CR" "security" "app.py" 10 12 "" "" ""
        [("tools", Json.arr [Json.str "A", Json.str "B"])]).line_end
      = (Finding.mk "A, B" "sql-injection" "CR" "security" "app.py" 10 12 "" "" ""
        [("tools", Json.arr [Json.str "B", Json.str "A"])]).line_end) ∧
    ((Finding.mk "A" "sql-injection" "HI" "security" "app.py" 10 10 "" "" ""
        [("tools", Json.arr [Json.str "A", Json.str "A"])]).tool = sampleA.tool ∧
      (Finding.mk "A" "sql-injection" "HI" "security" "app.py" 10 10 "" "" ""
        [("tools", Json.arr [Json.str "A", Json.str "A"])]).title = sampleA.title ∧
      (Finding.mk "A" "sql-injection" "HI" "security" "app.py" 10 10 "" "" ""
        [("tools", Json.arr [Json.str "A", Json.str "A"])]).severity = sampleA.severity ∧
      (Finding.mk "A" "sql-injection" "HI" "security" "app.py" 10 10 "" "" ""
        [("tools", Json.arr [Json.str "A", Json.str "A"])]).category = sampleA.category ∧
      (Finding.mk "A" "sql-injection" "HI" "security" "app.py" 10 10 "" "" ""
        [("tools", Json.arr [Json.str "A", Json.str "A"])]).file_path = sampleA.file_path ∧
      (Finding.mk "A" "sql-injection" "HI" "security" "app.py" 10 10 "" "" ""
        [("tools", Json.arr [Json.str "A", Json.str "A"])]).line_start = sampleA.line_start ∧
      (Finding.mk "A" "sql-injection" "HI" "security" "app.py" 10 10 "" "" ""
        [("tools", Json.arr [Json.str "A", Json.str "A"])]).line_end = sampleA.line_end ∧
      (Finding.mk "A" "sql-injection" "HI" "security" "app.py" 10 10 "" "" ""
        [("tools", Json.arr [Json.str "A", Json.str "A"])]).code_snippet = sampleA.code_snippet ∧
      (Finding.mk "A" "sql-injection" "HI" "security" "app.py" 10 10 "" "" ""
        [("tools", Json.arr [Json.str "A", Json.str "A"])]).description = sampleA.description ∧
      (Finding.mk "A" "sql-injection" "HI" "security" "app.py" 10 10 "" "" ""
        [("tools", Json.arr [Json.str "A", Json.str "A"])]).cwe = sampleA.cwe ∧
      (∀ k, k ≠ "tools" →
        pyLookup (Finding.mk "A" "sql-injection" "HI" "security" "app.py" 10 10 "" "" ""
          [("tools", Json.arr [Json.str "A", Json.str "A"])]).metadata k
          = pyLookup sampleA.metadata k) ∧
      (∃ ts, pyLookup (Finding.mk "A" "sql-injection" "HI" "security" "app.py" 10 10 "" "" ""
          [("tools", Json.arr [Json.str "A", Json.str "A"])]).metadata "tools"
          = some (Json.arr ts) ∧ ∀ x, x ∈ ts ↔ x = Json.str sampleA.tool)) :=
  ⟨c1_merge_commutative_fields_and_idempotent.1 sampleA sampleB _ _ rfl rfl rfl rfl
      (by decide) (by decide),
   c1_merge_commutative_fields_and_idempotent.2 sampleA _ rfl rfl⟩

/-! ## C2: metadata accumulation across merges -/

/-- The `tools` list found in `{**self.metadata, **other.metadata}` (the
second input's list when both inputs carry one), or `[]` when absent. -/
def baseTools (a b : Finding) : List Json :=
  match pyLookup (pyDictMerge a.metadata b.metadata) "tools" with
  | some (Json.arr xs) => xs
  | _ => []

/-- First metadata counterexample input: metadata key "url" with value
"a" and a one-element tools list ["X"]. -/
def cex2A : Finding :=
  Finding.mk "A" "x" "HI" "c" "p.py" 1 1 "" "" ""
    [("url", Json.str "a"), ("tools", Json.arr [Json.str "X"])]

/-- Second metadata counterexample input: the same keys with value "b"
and tools list ["Y"]. -/
def cex2B : Finding :=
  Finding.mk "B" "x" "HI" "c" "p.py" 1 1 "" "" ""
    [("url", Json.str "b"), ("tools", Json.arr [Json.str "Y"])]

/-- C2 counterexample: merging `cex2A` with `cex2B` drops the key-value
pair ("url", "a") present in the first input (the second input's value
overwrites it), and drops the first input's tools entry "X" from the
merged tools list — refuting "every key-value pair present in either
input is present in the merged metadata" and "the tools field is the set
union of the inputs' contributing tool names". -/
theorem c2_metadata_overwrites :
    pyLookup cex2A.metadata "url" = some (Json.str "a") ∧
    (cex2A.merge_with cex2B).map (fun m => pyLookup m.metadata "url")
      = some (some (Json.str "b")) ∧
    Json.str "a" ≠ Json.str "b" ∧
    pyLookup cex2A.metadata "tools" = some (Json.arr [Json.str "X"]) ∧
    (cex2A.merge_with cex2B).map (fun m => pyLookup m.metadata "tools")
      = some (some (Json.arr [Json.str "Y", Json.str "A", Json.str "B"])) ∧
    Json.str "X" ∉ [Json.str "Y", Json.str "A", Json.str "B"] := by
  refine ⟨rfl, rfl, ?_, rfl, rfl, ?_⟩
  · intro h
    injection h with h'
    exact absurd h' (by decide)
  · intro h
    simp only [List.mem_cons, List.not_mem_nil, or_false] at h
    rcases h with h | h | h <;> injection h with h' <;> exact absurd h' (by decide)

/-- C2 (amended): across a successful merge, metadata keys accumulate
(every key present in either input is present in the result) and values
are preserved from the second input, or from the first where the second
has no entry; on a key collision the second input's value overwrites the
first's.  The merged `tools` list holds exactly the tools list surviving
the dict merge (the second input's when both carry one) plus both
contributing Findings' tool names. -/
theorem c2_metadata_accumulation (a b m : Finding)
    (h : a.merge_with b = some m) :
    (∀ k, (pyLookup a.metadata k).isSome ∨ (pyLookup b.metadata k).isSome →
      (pyLookup m.metadata k).isSome) ∧
    (∀ k v, k ≠ "tools" → pyLookup b.metadata k = some v →
      pyLookup m.metadata k = some v) ∧
    (∀ k v, k ≠ "tools" → pyLookup b.metadata k = none →
      pyLookup a.metadata k = some v → pyLookup m.metadata k = some v) ∧
    (∃ ts, pyLookup m.metadata "tools" = some (Json.arr ts) ∧
      Json.str a.tool ∈ ts ∧ Json.str b.tool ∈ ts ∧
      (∀ x, x ∈ ts ↔
        (x ∈ baseTools a b ∨ x = Json.str a.tool ∨ x = Json.str b.tool))) := by
  obtain ⟨tv, hm, hdis⟩ := mergeWith_inv a b m h
  have hmd : m.metadata = pyDictSet (pyDictMerge a.metadata b.metadata) "tools" tv := by
    rw [hm]
  refine ⟨?_, ?_, ?_, ?_⟩
  · intro k hk
    by_cases hkt : k = "tools"
    · subst hkt
      rw [hmd, pyLookup_pyDictSet_self]
      rfl
    · rw [hmd, pyLookup_pyDictSet_ne _ _ _ _ hkt, pyLookup_pyDictMerge]
      cases hak : pyLookup a.metadata k with
      | some v => simp
      | none =>
        rcases hk with hk | hk
        · rw [hak] at hk; cases hk
        · simpa using hk
  · intro k v hkt hbk
    rw [hmd, pyLookup_pyDictSet_ne _ _ _ _ hkt, pyLookup_pyDictMerge]
    cases hak : pyLookup a.metadata k <;> simp [hbk]
  · intro k v hkt hbk hak
    rw [hmd, pyLookup_pyDictSet_ne _ _ _ _ hkt, pyLookup_pyDictMerge, hak, hbk]
    rfl
  · rcases hdis with ⟨hT, htv⟩ | ⟨xs, hT, hall, htv⟩
    · refine ⟨[Json.str a.tool, Json.str b.tool], ?_, by simp, by simp, ?_⟩
      · rw [hmd, htv]
        exact pyLookup_pyDictSet_self _ _ _
      · intro x
        simp [baseTools, hT]
    · refine ⟨dedupKeepFirst (xs ++ [Json.str a.tool, Json.str b.tool]), ?_, ?_, ?_, ?_⟩
      · rw [hmd, htv]
        exact pyLookup_pyDictSet_self _ _ _
      · rw [mem_dedupKeepFirst]
        simp
      · rw [mem_dedupKeepFirst]
        simp
      · intro x
        rw [mem_dedupKeepFirst]
        simp [baseTools, hT]

/-- The concrete merge of `cex2A` with `cex2B`. -/
def cex2M : Finding :=
  Finding.mk "A, B" "x" "HI" "c" "p.py" 1 1 "" "" ""
    [("url", Json.str "b"),
     ("tools", Json.arr [Json.str "Y", Json.str "A", Json.str "B"])]

/-- C2 witness: the amended theorem applied to the concrete pair
`cex2A`, `cex2B`: the merged metadata keeps the second input's "url"
value and has a populated tools entry. -/
theorem c2_witness :
    pyLookup cex2M.metadata "url" = some (Json.str "b") ∧
    (pyLookup cex2M.metadata "tools").isSome = true :=
  ⟨(c2_metadata_accumulation cex2A cex2B cex2M rfl).2.1 "url" (Json.str "b")
      (by decide) rfl,
   by
    obtain ⟨ts, hts, -⟩ := (c2_metadata_accumulation cex2A cex2B cex2M rfl).2.2.2
    rw [hts]
    rfl⟩

/-! ## C6: severity normalization lookup discipline -/

theorem asciiPairs_up_fst : ∀ p ∈ asciiPairs, upChar p.1 = p.2 := by decide

theorem asciiPairs_up_snd : ∀ p ∈ asciiPairs, upChar p.2 = p.2 := by decide

theorem asciiPairs_low_fst : ∀ p ∈ asciiPairs, lowChar p.1 = p.1 := by decide

theorem asciiPairs_low_snd : ∀ p ∈ asciiPairs, lowChar p.2 = p.1 := by decide

theorem upChar_upChar (c : Char) : upChar (upChar c) = upChar c := by
  cases hf : asciiPairs.find? (fun p => decide (p.1 = c)) with
  | none =>
    have h1 : upChar c = c := by unfold upChar; rw [hf]
    simp only [h1]
  | some p =>
    have h1 : upChar c = p.2 := by unfold upChar; rw [hf]
    rw [h1]
    exact asciiPairs_up_snd p (List.mem_of_find?_eq_some hf)

theorem upChar_lowChar (c : Char) : upChar (lowChar c) = upChar c := by
  cases hf : asciiPairs.find? (fun p => decide (p.2 = c)) with
  | none =>
    have h1 : lowChar c = c := by unfold lowChar; rw [hf]
    simp only [h1]
  | some p =>
    have h1 : lowChar c = p.1 := by unfold lowChar; rw [hf]
    have hc : p.2 = c := by simpa using List.find?_some hf
    rw [h1, asciiPairs_up_fst p (List.mem_of_find?_eq_some hf), ← hc,
      asciiPairs_up_snd p (List.mem_of_find?_eq_some hf)]

theorem lowChar_lowChar (c : Char) : lowChar (lowChar c) = lowChar c := by
  cases hf : asciiPairs.find? (fun p => decide (p.2 = c)) with
  | none =>
    have h1 : lowChar c = c := by unfold lowChar; rw [hf]
    simp only [h1]
  | some p =>
    have h1 : lowChar c = p.1 := by unfold lowChar; rw [hf]
    rw [h1]
    exact asciiPairs_low_fst p (List.mem_of_find?_eq_some hf)

theorem pyToUpper_idem (s : String) : pyToUpper (pyToUpper s) = pyToUpper s := by
  unfold pyToUpper
  show String.mk (List.map upChar (List.map upChar s.data)) = _
  rw [List.map_map]
  exact congrArg String.mk (List.map_congr_left (fun c _ => upChar_upChar c))

theorem pyToUpper_pyToLower (s : String) : pyToUpper (pyToLower s) = pyToUpper s := by
  unfold pyToUpper pyToLower
  show String.mk (List.map upChar (List.map lowChar s.data)) = _
  rw [List.map_map]
  exact congrArg String.mk (List.map_congr_left (fun c _ => upChar_lowChar c))

theorem pyToLower_idem (s : String) : pyToLower (pyToLower s) = pyToLower s := by
  unfold pyToLower
  show String.mk (List.map lowChar (List.map lowChar s.data)) = _
  rw [List.map_map]
  exact congrArg String.mk (List.map_congr_left (fun c _ => lowChar_lowChar c))

theorem pyLookup_mem {α : Type} (d : List (String × α)) (k : String) (v : α)
    (h : pyLookup d k = some v) : (k, v) ∈ d := by
  induction d with
  | nil => cases h
  | cons p t ih =>
    obtain ⟨k', v'⟩ := p
    by_cases hk : k' = k
    · subst hk
      simp [pyLookup] at h
      subst h
      exact List.mem_cons_self _ _
    · simp only [pyLookup, if_neg hk] at h
      exact List.mem_cons_of_mem _ (ih h)

theorem findCI_mem (T : List (String × String)) (u v : String)
    (h : findCaseInsensitive T u = some v) : v ∈ T.map Prod.snd := by
  induction T with
  | nil => cases h
  | cons p t ih =>
    obtain ⟨k0, v0⟩ := p
    by_cases hu : pyToUpper k0 = u
    · simp only [findCaseInsensitive, if_pos hu, Option.some.injEq] at h
      subst h
      simp
    · simp only [findCaseInsensitive, if_neg hu] at h
      simpa using Or.inr (by simpa using ih h)

theorem findCI_eq_some (T : List (String × String)) (u : String)
    (H2 : (T.map (fun p => pyToUpper p.1)).Nodup)
    (k v : String) (hmem : (k, v) ∈ T) (hk : pyToUpper k = u) :
    findCaseInsensitive T u = some v := by
  induction T with
  | nil => cases hmem
  | cons p t ih =>
    obtain ⟨k0, v0⟩ := p
    simp only [List.map_cons, List.nodup_cons] at H2
    rcases List.mem_cons.mp hmem with he | ht
    · obtain ⟨hk0, hv0⟩ := Prod.mk.injEq .. ▸ he
      subst hk0; subst hv0
      simp only [findCaseInsensitive, if_pos hk]
    · by_cases hu : pyToUpper k0 = u
      · exfalso
        apply H2.1
        rw [hu, ← hk]
        exact List.mem_map.mpr ⟨(k, v), ht, rfl⟩
      · simp only [findCaseInsensitive, if_neg hu]
        exact ih H2.2 ht

/-- The lookup discipline the spec describes, stated on the spec's side
for comparison with `lookupSeverity`: an exact case-sensitive match
first, then the first case-insensitive key match, else
`UnmappableSeverity`. -/
def specTwoPhaseLookup (T : List (String × String)) (s : String) :
    Except SeverityError String :=
  match pyLookup T s with
  | some v => .ok v
  | none =>
    match findCaseInsensitive T (pyToUpper s) with
    | some v => .ok v
    | none => .error SeverityError.unmappableSeverity

theorem lookupSeverity_eq_spec (T : List (String × String)) (s : String)
    (H1 : ∀ p ∈ T, pyToUpper p.1 = p.1 ∨ pyToLower p.1 = p.1)
    (H2 : (T.map (fun p => pyToUpper p.1)).Nodup) :
    lookupSeverity T s = specTwoPhaseLookup T s := by
  have hpairInj : ∀ p ∈ T, ∀ q ∈ T, pyToUpper p.1 = pyToUpper q.1 → p = q :=
    fun p hp q hq h => List.inj_on_of_nodup_map H2 hp hq h
  unfold lookupSeverity specTwoPhaseLookup
  cases hsu : pyLookup T (pyToUpper s) with
  | some v1 =>
    simp only [hsu, Option.isNone_some, Bool.false_and, Bool.false_eq_true,
      if_false, Option.getD_some]
    cases hex : pyLookup T s with
    | some v0 =>
      have heq := hpairInj _ (pyLookup_mem T s v0 hex)
        _ (pyLookup_mem T (pyToUpper s) v1 hsu) (pyToUpper_idem s).symm
      injection heq with h1 h2
      rw [h2]
    | none =>
      rw [findCI_eq_some T (pyToUpper s) H2 (pyToUpper s) v1
        (pyLookup_mem _ _ _ hsu) (pyToUpper_idem s)]
  | none =>
    cases hsl : pyLookup T (pyToLower s) with
    | some v2 =>
      simp only [hsu, hsl, Option.isNone_some, Option.isNone_none, Bool.true_and,
        Bool.false_eq_true, if_false, Option.getD_none, Option.getD_some]
      cases hex : pyLookup T s with
      | some v0 =>
        have heq := hpairInj _ (pyLookup_mem T s v0 hex)
          _ (pyLookup_mem T (pyToLower s) v2 hsl) (pyToUpper_pyToLower s).symm
        injection heq with h1 h2
        rw [h2]
      | none =>
        rw [findCI_eq_some T (pyToUpper s) H2 (pyToLower s) v2
          (pyLookup_mem _ _ _ hsl) (pyToUpper_pyToLower s)]
    | none =>
      have hex : pyLookup T s = none := by
        cases hex : pyLookup T s with
        | none => rfl
        | some v0 =>
          exfalso
          rcases H1 _ (pyLookup_mem T s v0 hex) with h | h
          · rw [show pyToUpper s = s from h ▸ rfl] at hsu
            · rw [hex] at hsu; cases hsu
          · rw [show pyToLower s = s from h ▸ rfl] at hsl
            · rw [hex] at hsl; cases hsl
      simp only [hsu, hsl, hex, Option.isNone_none, Bool.true_and, if_true]

theorem lookupSeverity_error (T : List (String × String)) (s : String)
    (e : SeverityError) (h : lookupSeverity T s = .error e) :
    e = SeverityError.unmappableSeverity := by
  unfold lookupSeverity at h
  by_cases hc : ((pyLookup T (pyToUpper s)).isNone
      && (pyLookup T (pyToLower s)).isNone) = true
  · rw [if_pos hc] at h
    cases hf : findCaseInsensitive T (pyToUpper s) with
    | some v => rw [hf] at h; cases h
    | none =>
      rw [hf] at h
      injection h with h'
      exact h'.symm
  · rw [if_neg hc] at h
    cases h

theorem lookupSeverity_ok_mem (T : List (String × String)) (s v : String)
    (h : lookupSeverity T s = .ok v) : v ∈ T.map Prod.snd := by
  unfold lookupSeverity at h
  by_cases hc : ((pyLookup T (pyToUpper s)).isNone
      && (pyLookup T (pyToLower s)).isNone) = true
  · rw [if_pos hc] at h
    cases hf : findCaseInsensitive T (pyToUpper s) with
    | some v' =>
      rw [hf] at h
      injection h with h'
      subst h'
      exact findCI_mem T _ _ hf
    | none => rw [hf] at h; cases h
  · rw [if_neg hc] at h
    cases hsu : pyLookup T (pyToUpper s) with
    | some v1 =>
      rw [hsu] at h
      simp only [Option.getD_some] at h
      injection h with h'
      subst h'
      exact List.mem_map.mpr ⟨_, pyLookup_mem _ _ _ hsu, rfl⟩
    | none =>
      cases hsl : pyLookup T (pyToLower s) with
      | some v2 =>
        rw [hsu, hsl] at h
        simp only [Option.getD_none, Option.getD_some] at h
        injection h with h'
        subst h'
        exact List.mem_map.mpr ⟨_, pyLookup_mem _ _ _ hsl, rfl⟩
      | none =>
        exfalso
        apply hc
        rw [hsu, hsl]
        rfl

/-- C6: `normalize_severity` looks the tool up case-insensitively (by
lowercasing the name); it fails with `UnknownTool` iff the lowercased
tool has no registered table; against each registered table the severity
lookup behaves as the two-phase discipline (exact match, then the first
case-insensitive key match); it fails with `UnmappableSeverity` iff no
table key matches the severity case-insensitively; and every successful
result is one of exactly the four ordinals CR/HI/ME/LO. -/
theorem c6_normalize_severity_contract :
    (∀ tool severity, normalize_severity tool severity
        = normalize_severity (pyToLower tool) severity) ∧
    (∀ tool severity,
        (normalize_severity tool severity = .error SeverityError.unknownTool ↔
          pyLookup SEVERITY_MAPPINGS (pyToLower tool) = none)) ∧
    (∀ name T, (name, T) ∈ SEVERITY_MAPPINGS → ∀ severity,
        normalize_severity name severity = specTwoPhaseLookup T severity) ∧
    (∀ name T, (name, T) ∈ SEVERITY_MAPPINGS → ∀ severity,
        (normalize_severity name severity
            = .error SeverityError.unmappableSeverity ↔
          findCaseInsensitive T (pyToUpper severity) = none)) ∧
    (∀ tool severity v, normalize_severity tool severity = .ok v →
        v ∈ (["CR", "HI", "ME", "LO"] : List String)) := by
  have htwo : ∀ name T, (name, T) ∈ SEVERITY_MAPPINGS → ∀ severity,
      normalize_severity name severity = specTwoPhaseLookup T severity := by
    intro name T hmem severity
    simp only [SEVERITY_MAPPINGS, List.mem_cons, List.not_mem_nil, or_false,
      Prod.mk.injEq] at hmem
    rcases hmem with ⟨hn, hT⟩ | ⟨hn, hT⟩ | ⟨hn, hT⟩ | ⟨hn, hT⟩ <;>
      subst hn <;> subst hT
    · exact lookupSeverity_eq_spec semgrepTable severity (by decide) (by decide)
    · exact lookupSeverity_eq_spec banditTable severity (by decide) (by decide)
    · exact lookupSeverity_eq_spec npmAuditTable severity (by decide) (by decide)
    · exact lookupSeverity_eq_spec trivyTable severity (by decide) (by decide)
  have hnodup : ∀ name T, (name, T) ∈ SEVERITY_MAPPINGS →
      (T.map (fun p => pyToUpper p.1)).Nodup := by
    intro name T hmem
    simp only [SEVERITY_MAPPINGS, List.mem_cons, List.not_mem_nil, or_false,
      Prod.mk.injEq] at hmem
    rcases hmem with ⟨hn, hT⟩ | ⟨hn, hT⟩ | ⟨hn, hT⟩ | ⟨hn, hT⟩ <;>
      subst hT <;> decide
  refine ⟨?_, ?_, htwo, ?_, ?_⟩
  · intro tool severity
    unfold normalize_severity
    rw [pyToLower_idem]
  · intro tool severity
    unfold normalize_severity
    cases hlk : pyLookup SEVERITY_MAPPINGS (pyToLower tool) with
    | none => simp
    | some T =>
      simp only []
      constructor
      · intro h
        cases lookupSeverity_error T severity _ h
      · intro h
        cases h
  · intro name T hmem severity
    rw [htwo name T hmem severity]
    unfold specTwoPhaseLookup
    cases hex : pyLookup T severity with
    | some v =>
      constructor
      · intro h; cases h
      · intro h
        rw [findCI_eq_some T (pyToUpper severity) (hnodup name T hmem)
          severity v (pyLookup_mem _ _ _ hex) rfl] at h
        cases h
    | none =>
      cases hf : findCaseInsensitive T (pyToUpper severity) with
      | some v =>
        constructor
        · intro h; cases h
        · intro h; cases h
      | none =>
        constructor
        · intro h; rfl
        · intro h; rfl
  · intro tool severity v h
    unfold normalize_severity at h
    cases hlk : pyLookup SEVERITY_MAPPINGS (pyToLower tool) with
    | none => rw [hlk] at h; cases h
    | some T =>
      rw [hlk] at h
      have hv := lookupSeverity_ok_mem T severity v h
      have hmem := pyLookup_mem SEVERITY_MAPPINGS (pyToLower tool) T hlk
      simp only [SEVERITY_MAPPINGS, List.mem_cons, List.not_mem_nil, or_false,
        Prod.mk.injEq] at hmem
      rcases hmem with ⟨hn, hT⟩ | ⟨hn, hT⟩ | ⟨hn, hT⟩ | ⟨hn, hT⟩ <;> subst hT
      · exact (show ∀ x ∈ semgrepTable.map Prod.snd,
          x ∈ (["CR", "HI", "ME", "LO"] : List String) by decide) v hv
      · exact (show ∀ x ∈ banditTable.map Prod.snd,
          x ∈ (["CR", "HI", "ME", "LO"] : List String) by decide) v hv
      · exact (show ∀ x ∈ npmAuditTable.map Prod.snd,
          x ∈ (["CR", "HI", "ME", "LO"] : List String) by decide) v hv
      · exact (show ∀ x ∈ trivyTable.map Prod.snd,
          x ∈ (["CR", "HI", "ME", "LO"] : List String) by decide) v hv

/-- C6 witness: a mixed-case severity against the registered semgrep
table follows the two-phase lookup; an unknown tool is reported iff it is
unregistered; the case-insensitive fallback failure is reported for an
unmatched severity; and a successful mixed-case trivy lookup lands in the
four ordinals. -/
theorem c6_witness :
    normalize_severity "semgrep" "WaRnInG" = specTwoPhaseLookup semgrepTable "WaRnInG" ∧
    (normalize_severity "pylint" "HIGH" = .error SeverityError.unknownTool ↔
      pyLookup SEVERITY_MAPPINGS (pyToLower "pylint") = none) ∧
    (normalize_severity "bandit" "bogus" = .error SeverityError.unmappableSeverity ↔
      findCaseInsensitive banditTable (pyToUpper "bogus") = none) ∧
    "CR" ∈ (["CR", "HI", "ME", "LO"] : List String) :=
  ⟨c6_normalize_severity_contract.2.2.1 "semgrep" semgrepTable (by decide) "WaRnInG",
   c6_normalize_severity_contract.2.1 "pylint" "HIGH",
   c6_normalize_severity_contract.2.2.2.1 "bandit" banditTable (by decide) "bogus",
   c6_normalize_severity_contract.2.2.2.2 "trivy" "CrItIcAl" "CR" rfl⟩

/-! ## C4: npm via-entry parsing -/

/-- Whether a JSON value is a dict (`isinstance(item, dict)`). -/
def isObjJson : Json → Bool
  | Json.obj _ => true
  | _ => false

/-- A field that is absent or carries a string value. -/
def strOrAbsent (fs : List (String × Json)) (k : String) : Bool :=
  match pyLookup fs k with
  | none => true
  | some (Json.str _) => true
  | some _ => false

/-- Every dict entry of a via list has an absent-or-string `title`. -/
def npmItemsOk (items : List Json) : Bool :=
  items.all (fun i =>
    match i with
    | Json.obj fs => strOrAbsent fs "title"
    | _ => true)

/-- The package record's `via` field is absent, an empty list, or not a
list — the shapes that take the synthetic-Finding branch. -/
def viaAbsentEmptyOrNonList (vd : List (String × Json)) : Bool :=
  match (pyLookup vd "via").getD (Json.arr []) with
  | Json.arr (_ :: _) => false
  | _ => true

theorem npmViaItemFinding_eq (pkg title sev : String) (rangeJ : Json)
    (fields : List (String × Json)) (d : String)
    (hd : asStr ((pyLookup fields "title").getD (Json.str "")) = .ok d) :
    npmViaItemFinding pkg title (Json.str sev) rangeJ fields = .ok
      { tool := "npm_audit"
        title := if d ≠ "" then title ++ " - " ++ d else title
        severity := normalizeOrME "npm_audit" sev
        category := "dependency-vulnerability"
        file_path := "package.json"
        line_start := 0
        line_end := 0
        code_snippet := "Package: " ++ pkg
        description := d
        cwe := ""
        metadata := [("package", Json.str pkg), ("npm_severity", Json.str sev),
                     ("url", (pyLookup fields "url").getD (Json.str "")),
                     ("range", rangeJ)] } := by
  unfold npmViaItemFinding
  rw [hd]
  rfl

theorem npmViaItemFinding_ok (pkg title sev : String) (rangeJ : Json)
    (fields : List (String × Json)) (ht : strOrAbsent fields "title" = true) :
    ∃ f, npmViaItemFinding pkg title (Json.str sev) rangeJ fields = .ok f ∧
      f.file_path = "package.json" ∧ f.line_start = 0 ∧ f.line_end = 0 := by
  have hd : ∃ d, asStr ((pyLookup fields "title").getD (Json.str "")) = .ok d := by
    cases hl : pyLookup fields "title" with
    | none => exact ⟨"", rfl⟩
    | some j =>
      unfold strOrAbsent at ht
      rw [hl] at ht
      cases j with
      | str s => exact ⟨s, rfl⟩
      | null => cases ht
      | bool b => cases ht
      | num n => cases ht
      | arr xs => cases ht
      | obj fs => cases ht
  obtain ⟨d, hd⟩ := hd
  exact ⟨_, npmViaItemFinding_eq pkg title sev rangeJ fields d hd, rfl, rfl, rfl⟩

theorem npmViaFindings_ok (pkg title sev : String) (rangeJ : Json) :
    ∀ items : List Json, npmItemsOk items = true →
      ∃ fs, npmViaFindings pkg title (Json.str sev) rangeJ items = .ok fs ∧
        fs.length = items.countP isObjJson ∧
        ∀ f ∈ fs, f.file_path = "package.json" ∧
          f.line_start = 0 ∧ f.line_end = 0 := by
  intro items h
  induction items with
  | nil => exact ⟨[], rfl, rfl, by simp⟩
  | cons i rest ih =>
    unfold npmItemsOk at h ih
    simp only [List.all_cons, Bool.and_eq_true] at h
    obtain ⟨hi, hrest⟩ := h
    obtain ⟨fs, hfs, hlen, hall⟩ := ih hrest
    cases i with
    | obj fields =>
      obtain ⟨f, hf, hfp, hls, hle⟩ :=
        npmViaItemFinding_ok pkg title sev rangeJ fields hi
      refine ⟨f :: fs, ?_, ?_, ?_⟩
      · show (do
          let f ← npmViaItemFinding pkg title (Json.str sev) rangeJ fields
          let fs ← npmViaFindings pkg title (Json.str sev) rangeJ rest
          Except.ok (f :: fs)) = Except.ok (f :: fs)
        rw [hf, hfs]
        rfl
      · simp [List.countP_cons, isObjJson, hlen]
      · intro g hg
        rcases List.mem_cons.mp hg with hg | hg
        · subst hg; exact ⟨hfp, hls, hle⟩
        · exact hall g hg
    | null =>
      exact ⟨fs, hfs, by simpa [List.countP_cons, isObjJson] using hlen, hall⟩
    | bool b =>
      exact ⟨fs, hfs, by simpa [List.countP_cons, isObjJson] using hlen, hall⟩
    | num n =>
      exact ⟨fs, hfs, by simpa [List.countP_cons, isObjJson] using hlen, hall⟩
    | str s =>
      exact ⟨fs, hfs, by simpa [List.countP_cons, isObjJson] using hlen, hall⟩
    | arr xs =>
      exact ⟨fs, hfs, by simpa [List.countP_cons, isObjJson] using hlen, hall⟩

theorem exBind_ok {α β : Type} (a : α) (k : α → Except Unit β) :
    (Except.ok a >>= k) = k a := rfl

theorem strOrAbsent_getD (vd : List (String × Json)) (k dflt : String)
    (h : strOrAbsent vd k = true) :
    ∃ s, (pyLookup vd k).getD (Json.str dflt) = Json.str s := by
  cases hl : pyLookup vd k with
  | none => exact ⟨dflt, rfl⟩
  | some j =>
    unfold strOrAbsent at h
    rw [hl] at h
    cases j with
    | str s => exact ⟨s, rfl⟩
    | null => cases h
    | bool b => cases h
    | num n => cases h
    | arr xs => cases h
    | obj fs => cases h

theorem strOrAbsent_asStr (vd : List (String × Json)) (k dflt : String)
    (h : strOrAbsent vd k = true) :
    ∃ s, asStr ((pyLookup vd k).getD (Json.str dflt)) = .ok s := by
  obtain ⟨s, hs⟩ := strOrAbsent_getD vd k dflt h
  exact ⟨s, by rw [hs]; rfl⟩

theorem npmVulnFindings_via_eq (pkg : String) (vd : List (String × Json))
    (t sv : String) (items : List Json)
    (hname : asStr ((pyLookup vd "name").getD (Json.str pkg)) = .ok t)
    (hsev : (pyLookup vd "severity").getD (Json.str "moderate") = Json.str sv)
    (hvia : (pyLookup vd "via").getD (Json.arr []) = Json.arr items)
    (hne : items ≠ []) :
    npmVulnFindings pkg (Json.obj vd) = npmViaFindings pkg t (Json.str sv)
      ((pyLookup vd "range").getD (Json.str "")) items := by
  unfold npmVulnFindings
  dsimp only
  rw [show asObj (Json.obj vd) = Except.ok vd from rfl]
  simp only [exBind_ok]
  rw [hname]
  simp only [exBind_ok]
  rw [hvia]
  cases items with
  | nil => exact absurd rfl hne
  | cons i is =>
    rw [hsev]

theorem npmVulnFindings_synth_eq (pkg : String) (vd : List (String × Json))
    (t sv : String)
    (hname : asStr ((pyLookup vd "name").getD (Json.str pkg)) = .ok t)
    (hsev : (pyLookup vd "severity").getD (Json.str "moderate") = Json.str sv)
    (hvia : viaAbsentEmptyOrNonList vd = true) :
    npmVulnFindings pkg (Json.obj vd) = .ok
      [{ tool := "npm_audit"
         title := t
         severity := normalizeOrME "npm_audit" sv
         category := "dependency-vulnerability"
         file_path := "package.json"
         line_start := 0
         line_end := 0
         code_snippet := "Package: " ++ pkg
         description := "Vulnerability in " ++ pkg
         cwe := ""
         metadata := [("package", Json.str pkg),
                      ("npm_severity", Json.str sv),
                      ("range", (pyLookup vd "range").getD (Json.str ""))] }] := by
  unfold npmVulnFindings
  dsimp only
  rw [show asObj (Json.obj vd) = Except.ok vd from rfl]
  simp only [exBind_ok]
  rw [hname]
  simp only [exBind_ok]
  unfold viaAbsentEmptyOrNonList at hvia
  cases hv : (pyLookup vd "via").getD (Json.arr []) with
  | arr xs =>
    rw [hv] at hvia
    cases xs with
    | nil =>
      rw [hsev]
      rfl
    | cons i is => cases hvia
  | null => rw [hsev]; rfl
  | bool b => rw [hsev]; rfl
  | num n => rw [hsev]; rfl
  | str s => rw [hsev]; rfl
  | obj fs => rw [hsev]; rfl

theorem npmParse_single (pkg : String) (vd : List (String × Json))
    (fs : List Finding) (h : npmVulnFindings pkg (Json.obj vd) = .ok fs) :
    npmParse (some (Json.obj
      [("vulnerabilities", Json.obj [(pkg, Json.obj vd)])])) = .ok fs := by
  show (do
      let fs0 ← npmVulnFindings pkg (Json.obj vd)
      let more ← npmVulnsLoop []
      Except.ok (fs0 ++ more)) = Except.ok fs
  rw [h]
  simp only [exBind_ok]
  show Except.ok (fs ++ []) = Except.ok fs
  rw [List.append_nil]

/-- The npm-audit counterexample document: one package whose `via` list
holds a single string entry (an advisory reference by package name, the
common npm-audit shape for transitive vulnerabilities). -/
def c4input : Json :=
  Json.obj [("vulnerabilities",
    Json.obj [("p", Json.obj [("via", Json.arr [Json.str "other-pkg"])])])]

/-- C4 counterexample: a package record with one (non-dict) `via` entry
yields zero Findings — neither one per entry nor a synthetic one —
refuting "parse yields one Finding per via entry, or one synthetic
Finding if the via list is absent or empty". -/
theorem c4_string_via_entry_yields_nothing :
    npmParse (some c4input) = .ok [] ∧
    ([Json.str "other-pkg"] : List Json).length = 1 :=
  ⟨rfl, rfl⟩

/-- C4 (amended): for a package record whose `via` field is a non-empty
list, parse yields one Finding per dict-valued `via` entry (non-dict
entries yield none), each with file_path "package.json" and
line_start = line_end = 0; if `via` is absent, an empty list, or not a
list, parse yields exactly one synthetic Finding with the generic
description.  In particular one package with two dict `via` entries
yields exactly two Findings. -/
theorem c4_npm_via_parsing :
    (∀ (pkg : String) (vd : List (String × Json)) (items : List Json),
        pyLookup vd "via" = some (Json.arr items) → items ≠ [] →
        strOrAbsent vd "name" = true → strOrAbsent vd "severity" = true →
        npmItemsOk items = true →
        ∃ fs, npmParse (some (Json.obj
            [("vulnerabilities", Json.obj [(pkg, Json.obj vd)])])) = .ok fs ∧
          fs.length = items.countP isObjJson ∧
          ∀ f ∈ fs, f.file_path = "package.json" ∧
            f.line_start = 0 ∧ f.line_end = 0) ∧
    (∀ (pkg : String) (vd : List (String × Json)),
        viaAbsentEmptyOrNonList vd = true →
        strOrAbsent vd "name" = true → strOrAbsent vd "severity" = true →
        ∃ f, npmParse (some (Json.obj
            [("vulnerabilities", Json.obj [(pkg, Json.obj vd)])])) = .ok [f] ∧
          f.file_path = "package.json" ∧ f.line_start = 0 ∧ f.line_end = 0 ∧
          f.description = "Vulnerability in " ++ pkg) := by
  constructor
  · intro pkg vd items hvia hne hname hsev hitems
    obtain ⟨t, ht⟩ := strOrAbsent_asStr vd "name" pkg hname
    obtain ⟨sv, hs⟩ := strOrAbsent_getD vd "severity" "moderate" hsev
    obtain ⟨fs, hfs, hlen, hall⟩ := npmViaFindings_ok pkg t sv
      ((pyLookup vd "range").getD (Json.str "")) items hitems
    refine ⟨fs, ?_, hlen, hall⟩
    apply npmParse_single
    rw [npmVulnFindings_via_eq pkg vd t sv items ht hs (by rw [hvia]; rfl) hne]
    exact hfs
  · intro pkg vd hvia hname hsev
    obtain ⟨t, ht⟩ := strOrAbsent_asStr vd "name" pkg hname
    obtain ⟨sv, hs⟩ := strOrAbsent_getD vd "severity" "moderate" hsev
    refine ⟨Finding.mk "npm_audit" t (normalizeOrME "npm_audit" sv)
        "dependency-vulnerability" "package.json" 0 0 ("Package: " ++ pkg)
        ("Vulnerability in " ++ pkg) ""
        [("package", Json.str pkg), ("npm_severity", Json.str sv),
         ("range", (pyLookup vd "range").getD (Json.str ""))],
      ?_, rfl, rfl, rfl, rfl⟩
    apply npmParse_single
    exact npmVulnFindings_synth_eq pkg vd t sv ht hs hvia

/-- C4 witness: the claim's scenario — one package with two dict `via`
entries carrying different titles parses to exactly two Findings — and a
record with no `via` field parses to one synthetic Finding. -/
theorem c4_witness :
    (∃ fs, npmParse (some (Json.obj [("vulnerabilities", Json.obj
        [("lodash", Json.obj
          [("severity", Json.str "high"),
           ("via", Json.arr
             [Json.obj [("title", Json.str "Prototype Pollution")],
              Json.obj [("title", Json.str "Command Injection")]])])])])) = .ok fs ∧
      fs.length = ([Json.obj [("title", Json.str "Prototype Pollution")],
        Json.obj [("title", Json.str "Command Injection")]] : List Json).countP isObjJson ∧
      ∀ f ∈ fs, f.file_path = "package.json" ∧
        f.line_start = 0 ∧ f.line_end = 0) ∧
    (∃ f, npmParse (some (Json.obj [("vulnerabilities", Json.obj
        [("minimist", Json.obj [("severity", Json.str "low")])])])) = .ok [f] ∧
      f.file_path = "package.json" ∧ f.line_start = 0 ∧ f.line_end = 0 ∧
      f.description = "Vulnerability in " ++ "minimist") :=
  ⟨c4_npm_via_parsing.1 "lodash"
      [("severity", Json.str "high"),
       ("via", Json.arr
         [Json.obj [("title", Json.str "Prototype Pollution")],
          Json.obj [("title", Json.str "Command Injection")]])]
      [Json.obj [("title", Json.str "Prototype Pollution")],
       Json.obj [("title", Json.str "Command Injection")]]
      rfl (by simp) rfl rfl rfl,
   c4_npm_via_parsing.2 "minimist" [("severity", Json.str "low")] rfl rfl rfl⟩

/-! ## C5: parser error behaviour -/

/-- A field that is absent or carries a dict whose `line` entry is absent
or an integer — the shape `result.get(k, {}).get("line", 0)` consumes
without raising. -/
def lineOk (fs : List (String × Json)) (k : String) : Bool :=
  match (pyLookup fs k).getD (Json.obj []) with
  | Json.obj o =>
    match pyLookup o "line" with
    | none => true
    | some (Json.num _) => true
    | some _ => false
  | _ => false

/-- The cwe value survives semgrep's extraction and stringification. -/
def cweOk (c : Json) : Bool :=
  !(jsonTruthy (cweExtract c)) || pyHashable (cweExtract c)

/-- A well-shaped semgrep `extra.metadata` value. -/
def semgrepMetaWS : Json → Bool
  | Json.obj m =>
    strOrAbsent m "category" && cweOk ((pyLookup m "cwe").getD (Json.str ""))
  | _ => false

/-- A well-shaped semgrep `extra` value. -/
def semgrepExtraWS : Json → Bool
  | Json.obj e =>
    strOrAbsent e "message" && strOrAbsent e "severity" &&
    strOrAbsent e "lines" &&
    semgrepMetaWS ((pyLookup e "metadata").getD (Json.obj []))
  | _ => false

/-- A well-shaped entry of semgrep's `results` list. -/
def semgrepResultWS : Json → Bool
  | Json.obj fs =>
    strOrAbsent fs "check_id" && strOrAbsent fs "path" &&
    lineOk fs "start" && lineOk fs "end" &&
    semgrepExtraWS ((pyLookup fs "extra").getD (Json.obj []))
  | _ => false

/-- A well-shaped `results` value: a list of well-shaped results. -/
def semgrepResultsWS : Json → Bool
  | Json.arr rs => rs.all semgrepResultWS
  | _ => false

/-- A well-shaped semgrep document: a dict whose `results` entry is
absent or a list of well-shaped results. -/
def semgrepWS : Json → Bool
  | Json.obj d => semgrepResultsWS ((pyLookup d "results").getD (Json.arr []))
  | _ => false

theorem lineOk_extract (fs : List (String × Json)) (k : String)
    (h : lineOk fs k = true) :
    ∃ o n, (pyLookup fs k).getD (Json.obj []) = Json.obj o ∧
      asInt ((pyLookup o "line").getD (Json.num 0)) = .ok n := by
  unfold lineOk at h
  cases ho : (pyLookup fs k).getD (Json.obj []) with
  | obj o =>
    rw [ho] at h
    have h' : (match pyLookup o "line" with
      | none => true
      | some (Json.num _) => true
      | some _ => false) = true := h
    refine ⟨o, ?_⟩
    cases hl : pyLookup o "line" with
    | none => exact ⟨0, rfl, rfl⟩
    | some j =>
      rw [hl] at h'
      cases j with
      | num n => exact ⟨n, rfl, rfl⟩
      | null => simp at h'
      | bool b => simp at h'
      | str s => simp at h'
      | arr xs => simp at h'
      | obj fs2 => simp at h'
  | null => rw [ho] at h; simp at h
  | bool b => rw [ho] at h; simp at h
  | num n => rw [ho] at h; simp at h
  | str s => rw [ho] at h; simp at h
  | arr xs => rw [ho] at h; simp at h

theorem cweOk_extract (c : Json) (h : cweOk c = true) :
    ∃ s, (if jsonTruthy (cweExtract c) then pyStrOf (cweExtract c)
      else pure "") = Except.ok s := by
  unfold cweOk at h
  by_cases ht : jsonTruthy (cweExtract c) = true
  · rw [if_pos ht]
    rw [ht] at h
    simp only [Bool.not_true, Bool.false_or] at h
    cases hc : cweExtract c with
    | str s => exact ⟨s, rfl⟩
    | num n => exact ⟨toString n, rfl⟩
    | bool b =>
      cases b
      · exact ⟨"False", rfl⟩
      · exact ⟨"True", rfl⟩
    | null => exact ⟨"None", rfl⟩
    | arr xs => rw [hc] at h; cases h
    | obj fs => rw [hc] at h; cases h
  · rw [if_neg ht]
    exact ⟨"", rfl⟩

theorem semgrepResultFinding_ok (r : Json) (h : semgrepResultWS r = true) :
    ∃ f, semgrepResultFinding r = .ok f := by
  cases r with
  | obj fs =>
    simp only [semgrepResultWS, Bool.and_eq_true] at h
    obtain ⟨⟨⟨⟨hcid, hpath⟩, hstart⟩, hend⟩, hextra⟩ := h
    cases hex : (pyLookup fs "extra").getD (Json.obj []) with
    | obj e =>
      rw [hex] at hextra
      simp only [semgrepExtraWS, Bool.and_eq_true] at hextra
      obtain ⟨⟨⟨hmsg, hsev⟩, hlines⟩, hmeta⟩ := hextra
      cases hmd : (pyLookup e "metadata").getD (Json.obj []) with
      | obj m =>
        rw [hmd] at hmeta
        simp only [semgrepMetaWS, Bool.and_eq_true] at hmeta
        obtain ⟨hcat, hcwe⟩ := hmeta
        obtain ⟨cid, hcid'⟩ := strOrAbsent_asStr fs "check_id" "unknown" hcid
        obtain ⟨pth, hpath'⟩ := strOrAbsent_asStr fs "path" "" hpath
        obtain ⟨so, sn, hso, hsn⟩ := lineOk_extract fs "start" hstart
        obtain ⟨eo, en, heo, hen⟩ := lineOk_extract fs "end" hend
        obtain ⟨msg, hmsg'⟩ := strOrAbsent_asStr e "message" "" hmsg
        obtain ⟨sev, hsev'⟩ := strOrAbsent_asStr e "severity" "INFO" hsev
        obtain ⟨lns, hlines'⟩ := strOrAbsent_asStr e "lines" "" hlines
        obtain ⟨cat, hcat'⟩ := strOrAbsent_asStr m "category" "security" hcat
        obtain ⟨cw, hcw⟩ := cweOk_extract _ hcwe
        refine ⟨Finding.mk "semgrep" (pyTitle (pyReplaceDot cid))
          (normalizeOrME "semgrep" sev) cat pth sn en lns msg cw
          (pyDictMerge
            [("check_id", Json.str cid), ("semgrep_severity", Json.str sev)] m), ?_⟩
        unfold semgrepResultFinding
        dsimp only
        rw [show asObj (Json.obj fs) = Except.ok fs from rfl]
        simp only [exBind_ok]
        rw [hcid']
        simp only [exBind_ok]
        rw [hex, show asObj (Json.obj e) = Except.ok e from rfl]
        simp only [exBind_ok]
        rw [hmsg']
        simp only [exBind_ok]
        rw [hsev']
        simp only [exBind_ok]
        rw [hpath']
        simp only [exBind_ok]
        rw [hso, show asObj (Json.obj so) = Except.ok so from rfl]
        simp only [exBind_ok]
        rw [hsn]
        simp only [exBind_ok]
        rw [heo, show asObj (Json.obj eo) = Except.ok eo from rfl]
        simp only [exBind_ok]
        rw [hen]
        simp only [exBind_ok]
        rw [hlines']
        simp only [exBind_ok]
        rw [hmd, show asObj (Json.obj m) = Except.ok m from rfl]
        simp only [exBind_ok]
        rw [hcat']
        simp only [exBind_ok]
        by_cases hct : jsonTruthy (cweExtract ((pyLookup m "cwe").getD (Json.str ""))) = true
        · rw [if_pos hct] at hcw ⊢
          rw [hcw]
          rfl
        · rw [if_neg hct] at hcw ⊢
          have hcw' : Except.ok "" = Except.ok cw := hcw
          injection hcw' with hcw''
          subst hcw''
          rfl
      | null => rw [hmd] at hmeta; simp [semgrepMetaWS] at hmeta
      | bool b => rw [hmd] at hmeta; simp [semgrepMetaWS] at hmeta
      | num n => rw [hmd] at hmeta; simp [semgrepMetaWS] at hmeta
      | str s => rw [hmd] at hmeta; simp [semgrepMetaWS] at hmeta
      | arr xs => rw [hmd] at hmeta; simp [semgrepMetaWS] at hmeta
    | null => rw [hex] at hextra; simp [semgrepExtraWS] at hextra
    | bool b => rw [hex] at hextra; simp [semgrepExtraWS] at hextra
    | num n => rw [hex] at hextra; simp [semgrepExtraWS] at hextra
    | str s => rw [hex] at hextra; simp [semgrepExtraWS] at hextra
    | arr xs => rw [hex] at hextra; simp [semgrepExtraWS] at hextra
  | null => simp [semgrepResultWS] at h
  | bool b => simp [semgrepResultWS] at h
  | num n => simp [semgrepResultWS] at h
  | str s => simp [semgrepResultWS] at h
  | arr xs => simp [semgrepResultWS] at h

theorem semgrepResults_ok :
    ∀ rs : List Json, rs.all semgrepResultWS = true →
      ∃ fs, semgrepResults rs = .ok fs := by
  intro rs h
  induction rs with
  | nil => exact ⟨[], rfl⟩
  | cons r rest ih =>
    simp only [List.all_cons, Bool.and_eq_true] at h
    obtain ⟨f, hf⟩ := semgrepResultFinding_ok r h.1
    obtain ⟨fs, hfs⟩ := ih h.2
    refine ⟨f :: fs, ?_⟩
    show (do
      let f ← semgrepResultFinding r
      let fs ← semgrepResults rest
      Except.ok (f :: fs)) = Except.ok (f :: fs)
    rw [hf]
    simp only [exBind_ok]
    rw [hfs]
    rfl

theorem semgrepParse_ok (j : Json) (h : semgrepWS j = true) :
    ∃ fs, semgrepParse (some j) = .ok fs := by
  cases j with
  | obj d =>
    simp only [semgrepWS] at h
    cases hres : (pyLookup d "results").getD (Json.arr []) with
    | arr rs =>
      rw [hres] at h
      simp only [semgrepResultsWS] at h
      obtain ⟨fs, hfs⟩ := semgrepResults_ok rs h
      refine ⟨fs, ?_⟩
      unfold semgrepParse
      dsimp only
      rw [show asObj (Json.obj d) = Except.ok d from rfl]
      simp only [exBind_ok]
      rw [hres, show pyIterList (Json.arr rs) = Except.ok rs from rfl]
      simp only [exBind_ok]
      exact hfs
    | null => rw [hres] at h; simp [semgrepResultsWS] at h
    | bool b => rw [hres] at h; simp [semgrepResultsWS] at h
    | num n => rw [hres] at h; simp [semgrepResultsWS] at h
    | str s => rw [hres] at h; simp [semgrepResultsWS] at h
    | obj fs2 => rw [hres] at h; simp [semgrepResultsWS] at h
  | null => simp [semgrepWS] at h
  | bool b => simp [semgrepWS] at h
  | num n => simp [semgrepWS] at h
  | str s => simp [semgrepWS] at h
  | arr xs => simp [semgrepWS] at h

/-- The CweIDs value survives trivy's `cwe_ids[0] if cwe_ids else ""`. -/
def trivyCweOk (c : Json) : Bool :=
  if jsonTruthy c then
    match c with
    | Json.arr (x :: _) =>
      match x with
      | Json.str _ => true
      | _ => false
    | Json.str _ => true
    | _ => false
  else true

/-- A well-shaped entry of a trivy `Vulnerabilities` list. -/
def trivyVulnWS : Json → Bool
  | Json.obj v =>
    strOrAbsent v "VulnerabilityID" && strOrAbsent v "PkgName" &&
    strOrAbsent v "InstalledVersion" && strOrAbsent v "FixedVersion" &&
    strOrAbsent v "Severity" && strOrAbsent v "Title" &&
    strOrAbsent v "Description" &&
    trivyCweOk ((pyLookup v "CweIDs").getD (Json.arr []))
  | _ => false

/-- A well-shaped `Vulnerabilities` value. -/
def trivyVulnsWS : Json → Bool
  | Json.arr vs => vs.all trivyVulnWS
  | _ => false

/-- A well-shaped entry of trivy's `Results` array. -/
def trivyResultWS : Json → Bool
  | Json.obj r =>
    strOrAbsent r "Target" &&
    trivyVulnsWS ((pyLookup r "Vulnerabilities").getD (Json.arr []))
  | _ => false

/-- A well-shaped `Results` value. -/
def trivyResultsWS : Json → Bool
  | Json.arr rs => rs.all trivyResultWS
  | _ => false

/-- A well-shaped trivy document. -/
def trivyWS : Json → Bool
  | Json.obj d => trivyResultsWS ((pyLookup d "Results").getD (Json.arr []))
  | _ => false

theorem trivyVulnFinding_ok (target : String) (v : Json)
    (h : trivyVulnWS v = true) : ∃ f, trivyVulnFinding target v = .ok f := by
  cases v with
  | obj fields =>
    simp only [trivyVulnWS, Bool.and_eq_true] at h
    obtain ⟨⟨⟨⟨⟨⟨⟨hvid, hpkg⟩, hinst⟩, hfix⟩, hsev⟩, httl⟩, hdesc⟩, hcwe⟩ := h
    obtain ⟨vid, hvid'⟩ := strOrAbsent_asStr fields "VulnerabilityID" "unknown" hvid
    obtain ⟨pkg, hpkg'⟩ := strOrAbsent_asStr fields "PkgName" "" hpkg
    obtain ⟨inst, hinst'⟩ := strOrAbsent_asStr fields "InstalledVersion" "" hinst
    obtain ⟨fixd, hfix'⟩ := strOrAbsent_asStr fields "FixedVersion" "" hfix
    obtain ⟨sev, hsev'⟩ := strOrAbsent_asStr fields "Severity" "MEDIUM" hsev
    obtain ⟨ttl, httl'⟩ := strOrAbsent_asStr fields "Title" "" httl
    obtain ⟨desc, hdesc'⟩ := strOrAbsent_asStr fields "Description" "" hdesc
    have hstart : ∀ cw : String,
        (trivyVulnFinding target (Json.obj fields)
          = .ok (Finding.mk "trivy"
            (if ttl ≠ "" then vid ++ ": " ++ ttl else vid)
            (normalizeOrME "trivy" sev) "dependency-vulnerability" target 0 0
            ("Package: " ++ pkg ++ "@" ++ inst)
            (if desc ≠ "" then desc else ttl) cw
            [("vulnerability_id", Json.str vid), ("package", Json.str pkg),
             ("installed_version", Json.str inst),
             ("fixed_version", Json.str fixd), ("trivy_severity", Json.str sev),
             ("references", (pyLookup fields "References").getD (Json.arr []))])) ↔
        ((if jsonTruthy ((pyLookup fields "CweIDs").getD (Json.arr [])) = true then
          match (pyLookup fields "CweIDs").getD (Json.arr []) with
          | Json.arr (x :: _) => asStr x
          | Json.str s => pure (s.take 1)
          | _ => Except.error ()
        else pure "") = Except.ok cw) := by
      intro cw
      unfold trivyVulnFinding
      dsimp only
      rw [show asObj (Json.obj fields) = Except.ok fields from rfl]
      simp only [exBind_ok]
      rw [hvid']
      simp only [exBind_ok]
      rw [hpkg']
      simp only [exBind_ok]
      rw [hinst']
      simp only [exBind_ok]
      rw [hfix']
      simp only [exBind_ok]
      rw [hsev']
      simp only [exBind_ok]
      rw [httl']
      simp only [exBind_ok]
      rw [hdesc']
      simp only [exBind_ok]
      by_cases hct : jsonTruthy ((pyLookup fields "CweIDs").getD (Json.arr [])) = true
      · rw [if_pos hct, if_pos hct]
        cases hc : (pyLookup fields "CweIDs").getD (Json.arr []) with
        | arr xs =>
          cases xs with
          | nil =>
            constructor
            · intro hh
              exfalso
              exact Except.noConfusion hh
            · intro hh
              exact absurd hh (by simp)
          | cons x rest =>
            cases hx : x with
            | str s =>
              constructor
              · intro hh
                have : s = cw := by
                  have := hh
                  injection this with h2
                  exact congrArg Finding.cwe h2
                rw [← this]
                rfl
              · intro hh
                have : cw = s := by
                  have hh' : Except.ok s = Except.ok cw := hh
                  injection hh' with h2
                  exact h2.symm
                rw [this]
                rfl
            | null =>
              constructor
              · intro hh; exact Except.noConfusion hh
              · intro hh; exact Except.noConfusion hh
            | bool b =>
              constructor
              · intro hh; exact Except.noConfusion hh
              · intro hh; exact Except.noConfusion hh
            | num n =>
              constructor
              · intro hh; exact Except.noConfusion hh
              · intro hh; exact Except.noConfusion hh
            | arr ys =>
              constructor
              · intro hh; exact Except.noConfusion hh
              · intro hh; exact Except.noConfusion hh
            | obj os =>
              constructor
              · intro hh; exact Except.noConfusion hh
              · intro hh; exact Except.noConfusion hh
        | str s =>
          constructor
          · intro hh
            have : s.take 1 = cw := by
              have := hh
              injection this with h2
              exact congrArg Finding.cwe h2
            rw [← this]
            rfl
          · intro hh
            have : cw = s.take 1 := by
              have hh' : Except.ok (s.take 1) = Except.ok cw := hh
              injection hh' with h2
              exact h2.symm
            rw [this]
            rfl
        | null =>
          constructor
          · intro hh; exact Except.noConfusion hh
          · intro hh; exact Except.noConfusion hh
        | bool b =>
          constructor
          · intro hh; exact Except.noConfusion hh
          · intro hh; exact Except.noConfusion hh
        | num n =>
          constructor
          · intro hh; exact Except.noConfusion hh
          · intro hh; exact Except.noConfusion hh
        | obj os =>
          constructor
          · intro hh; exact Except.noConfusion hh
          · intro hh; exact Except.noConfusion hh
      · rw [if_neg hct, if_neg hct]
        constructor
        · intro hh
          have : "" = cw := by
            have := hh
            injection this with h2
            exact congrArg Finding.cwe h2
          rw [← this]
          rfl
        · intro hh
          have : cw = "" := by
            have hh' : Except.ok "" = Except.ok cw := hh
            injection hh' with h2
            exact h2.symm
          rw [this]
          rfl
    unfold trivyCweOk at hcwe
    by_cases hct : jsonTruthy ((pyLookup fields "CweIDs").getD (Json.arr [])) = true
    · rw [if_pos hct] at hcwe
      cases hc : (pyLookup fields "CweIDs").getD (Json.arr []) with
      | arr xs =>
        rw [hc] at hcwe
        cases xs with
        | nil => simp at hcwe
        | cons x rest =>
          cases hx : x with
          | str s =>
            refine ⟨_, (hstart s).mpr ?_⟩
            rw [if_pos hct, hc, hx]
            rfl
          | null => rw [hx] at hcwe; simp at hcwe
          | bool b => rw [hx] at hcwe; simp at hcwe
          | num n => rw [hx] at hcwe; simp at hcwe
          | arr ys => rw [hx] at hcwe; simp at hcwe
          | obj os => rw [hx] at hcwe; simp at hcwe
      | str s =>
        refine ⟨_, (hstart (s.take 1)).mpr ?_⟩
        rw [if_pos hct, hc]
        rfl
      | null => rw [hc] at hcwe; simp at hcwe
      | bool b => rw [hc] at hcwe; simp at hcwe
      | num n => rw [hc] at hcwe; simp at hcwe
      | obj os => rw [hc] at hcwe; simp at hcwe
    · refine ⟨_, (hstart "").mpr ?_⟩
      rw [if_neg hct]
      rfl
  | null => simp [trivyVulnWS] at h
  | bool b => simp [trivyVulnWS] at h
  | num n => simp [trivyVulnWS] at h
  | str s => simp [trivyVulnWS] at h
  | arr xs => simp [trivyVulnWS] at h

theorem trivyVulns_ok (target : String) :
    ∀ vs : List Json, vs.all trivyVulnWS = true →
      ∃ fs, trivyVulns target vs = .ok fs := by
  intro vs h
  induction vs with
  | nil => exact ⟨[], rfl⟩
  | cons v rest ih =>
    simp only [List.all_cons, Bool.and_eq_true] at h
    obtain ⟨f, hf⟩ := trivyVulnFinding_ok target v h.1
    obtain ⟨fs, hfs⟩ := ih h.2
    refine ⟨f :: fs, ?_⟩
    show (do
      let f ← trivyVulnFinding target v
      let fs ← trivyVulns target rest
      Except.ok (f :: fs)) = Except.ok (f :: fs)
    rw [hf]
    simp only [exBind_ok]
    rw [hfs]
    rfl

theorem trivyResultFindings_ok (r : Json) (h : trivyResultWS r = true) :
    ∃ fs, trivyResultFindings r = .ok fs := by
  cases r with
  | obj fields =>
    simp only [trivyResultWS, Bool.and_eq_true] at h
    obtain ⟨htgt, hvulns⟩ := h
    obtain ⟨tgt, htgt'⟩ := strOrAbsent_asStr fields "Target" "" htgt
    cases hv : (pyLookup fields "Vulnerabilities").getD (Json.arr []) with
    | arr vs =>
      rw [hv] at hvulns
      simp only [trivyVulnsWS] at hvulns
      obtain ⟨fs, hfs⟩ := trivyVulns_ok tgt vs hvulns
      refine ⟨fs, ?_⟩
      unfold trivyResultFindings
      rw [show asObj (Json.obj fields) = Except.ok fields from rfl]
      simp only [exBind_ok]
      rw [htgt']
      simp only [exBind_ok]
      rw [hv, show pyIterList (Json.arr vs) = Except.ok vs from rfl]
      simp only [exBind_ok]
      exact hfs
    | null => rw [hv] at hvulns; simp [trivyVulnsWS] at hvulns
    | bool b => rw [hv] at hvulns; simp [trivyVulnsWS] at hvulns
    | num n => rw [hv] at hvulns; simp [trivyVulnsWS] at hvulns
    | str s => rw [hv] at hvulns; simp [trivyVulnsWS] at hvulns
    | obj os => rw [hv] at hvulns; simp [trivyVulnsWS] at hvulns
  | null => simp [trivyResultWS] at h
  | bool b => simp [trivyResultWS] at h
  | num n => simp [trivyResultWS] at h
  | str s => simp [trivyResultWS] at h
  | arr xs => simp [trivyResultWS] at h

theorem trivyResults_ok :
    ∀ rs : List Json, rs.all trivyResultWS = true →
      ∃ fs, trivyResults rs = .ok fs := by
  intro rs h
  induction rs with
  | nil => exact ⟨[], rfl⟩
  | cons r rest ih =>
    simp only [List.all_cons, Bool.and_eq_true] at h
    obtain ⟨fs1, hfs1⟩ := trivyResultFindings_ok r h.1
    obtain ⟨fs2, hfs2⟩ := ih h.2
    refine ⟨fs1 ++ fs2, ?_⟩
    show (do
      let fs ← trivyResultFindings r
      let rest ← trivyResults rest
      Except.ok (fs ++ rest)) = Except.ok (fs1 ++ fs2)
    rw [hfs1]
    simp only [exBind_ok]
    rw [hfs2]
    rfl

theorem trivyParse_ok (j : Json) (h : trivyWS j = true) :
    ∃ fs, trivyParse (some j) = .ok fs := by
  cases j with
  | obj d =>
    simp only [trivyWS] at h
    cases hres : (pyLookup d "Results").getD (Json.arr []) with
    | arr rs =>
      rw [hres] at h
      simp only [trivyResultsWS] at h
      obtain ⟨fs, hfs⟩ := trivyResults_ok rs h
      refine ⟨fs, ?_⟩
      unfold trivyParse
      dsimp only
      rw [show asObj (Json.obj d) = Except.ok d from rfl]
      simp only [exBind_ok]
      rw [hres, show pyIterList (Json.arr rs) = Except.ok rs from rfl]
      simp only [exBind_ok]
      exact hfs
    | null => rw [hres] at h; simp [trivyResultsWS] at h
    | bool b => rw [hres] at h; simp [trivyResultsWS] at h
    | num n => rw [hres] at h; simp [trivyResultsWS] at h
    | str s => rw [hres] at h; simp [trivyResultsWS] at h
    | obj os => rw [hres] at h; simp [trivyResultsWS] at h
  | null => simp [trivyWS] at h
  | bool b => simp [trivyWS] at h
  | num n => simp [trivyWS] at h
  | str s => simp [trivyWS] at h
  | arr xs => simp [trivyWS] at h

/-- C5 counterexample: decodable JSON whose top level is an array (not
the documented object shape) makes both parsers raise (`AttributeError`
on `.get`, caught by neither `except` clause) instead of degrading to an
empty sequence. -/
theorem c5_top_level_array_raises :
    semgrepParse (some (Json.arr [])) = .error () ∧
    trivyParse (some (Json.arr [])) = .error () :=
  ⟨rfl, rfl⟩

/-- C5 (amended): the semgrep and trivy parse operations never raise on
unreadable files or syntactically malformed JSON — both degrade to the
empty sequence — and succeed on every well-shaped document; but on
decodable JSON of an unexpected shape (e.g. a top-level array) they
raise instead of degrading. -/
theorem c5_parse_error_discipline :
    semgrepParse none = .ok [] ∧
    trivyParse none = .ok [] ∧
    (∀ j, semgrepWS j = true → ∃ fs, semgrepParse (some j) = .ok fs) ∧
    (∀ j, trivyWS j = true → ∃ fs, trivyParse (some j) = .ok fs) :=
  ⟨rfl, rfl, semgrepParse_ok, trivyParse_ok⟩

/-- C5 witness: concrete well-shaped semgrep and trivy documents parse
successfully. -/
theorem c5_witness :
    (∃ fs, semgrepParse (some (Json.obj [("results", Json.arr
      [Json.obj [("check_id", Json.str "python.lang.security.audit"),
                 ("path", Json.str "app.py"),
                 ("start", Json.obj [("line", Json.num 3)]),
                 ("end", Json.obj [("line", Json.num 4)]),
                 ("extra", Json.obj
                   [("message", Json.str "found an issue"),
                    ("severity", Json.str "ERROR"),
                    ("lines", Json.str "eval(x)"),
                    ("metadata", Json.obj
                      [("category", Json.str "security"),
                       ("cwe", Json.arr [Json.str "CWE-95"])])])]])])) = .ok fs) ∧
    (∃ fs, trivyParse (some (Json.obj [("Results", Json.arr
      [Json.obj [("Target", Json.str "package-lock.json"),
                 ("Vulnerabilities", Json.arr
                   [Json.obj [("VulnerabilityID", Json.str "CVE-2024-0001"),
                              ("PkgName", Json.str "lodash"),
                              ("Severity", Json.str "HIGH"),
                              ("Title", Json.str "prototype pollution"),
                              ("CweIDs", Json.arr [Json.str "CWE-1321"])]])]])])) = .ok fs) :=
  ⟨c5_parse_error_discipline.2.2.1 _ rfl, c5_parse_error_discipline.2.2.2 _ rfl⟩
